import Mathlib

set_option autoImplicit false

namespace SmartAiAnalyzer

/-!
Shallow embedding of the smart_ai_analyzer server core: the `MemStorage`
in-memory repository (server/storage.ts), the Express route handlers that
the claims reference (server/routes.ts), and the sidecar readiness poll
(server/python-bridge.ts).

Modelling conventions:
- A JavaScript `Map` is an association list in insertion order: `Map.get`
  returns the first (unique) matching entry, `Map.set` replaces an existing
  key in place and otherwise appends, `Map.delete` removes the entry.
- JS numbers that carry data (monetary values, scores) are modelled as `Int`;
  ids and counters as `Nat`; timestamps (`new Date()`) as a `Nat` clock value
  passed explicitly into the operations that stamp one.
- Free-form JSON objects (jsonb columns, `z.record(z.string(), z.any())`)
  are modelled as string-keyed association lists; the empty object is `[]`.
- Nullable / optional fields are `Option`; a thrown exception is `none` in an
  `Option` result; async functions are ordinary state-passing functions.
-/

/-- Lookup in a JS `Map` modelled as an association list (first matching key). -/
def mapGet {α : Type} : List (Nat × α) → Nat → Option α
  | [], _ => none
  | (k, v) :: rest, k' => if k = k' then some v else mapGet rest k'

/-- JS `Map.set`: replace an existing key in place, otherwise append. -/
def mapSet {α : Type} : List (Nat × α) → Nat → α → List (Nat × α)
  | [], k, v => [(k, v)]
  | (k', v') :: rest, k, v =>
      if k' = k then (k, v) :: rest else (k', v') :: mapSet rest k v

/-- JS `Map.delete`: remove the entry with the given key. -/
def mapErase {α : Type} : List (Nat × α) → Nat → List (Nat × α)
  | [], _ => []
  | (k', v') :: rest, k => if k' = k then rest else (k', v') :: mapErase rest k

/-- JS `Map.values()` in insertion order. -/
def mapValues {α : Type} (l : List (Nat × α)) : List α := l.map Prod.snd

/-- Boolean no-duplicates check for a list of ids. -/
def natNodup : List Nat → Bool
  | [] => true
  | x :: xs => (!xs.contains x) && natNodup xs

/-- Boolean check that the keys of a modelled JS `Map` are pairwise distinct
(true of every real `Map`). -/
def keysNodup {α : Type} (l : List (Nat × α)) : Bool := natNodup (l.map Prod.fst)

/-- JavaScript `a ?? b` on an optional value: `b` only when `a` is nullish. -/
def jsNullish {α : Type} (a b : Option α) : Option α :=
  match a with
  | some v => some v
  | none => b

/-- JavaScript `a || b` on an optional string: falsy (`undefined`, `null`, `""`)
falls through to `b`. -/
def jsOrString (a b : Option String) : Option String :=
  match a with
  | some v => if v = "" then b else some v
  | none => b

/-- Free-form JSON object value (jsonb / `z.record`): string association list. -/
abbrev JsonObj := List (String × String)

/-- financialProfileSchema (shared/schema). -/
structure FinancialProfile where
  annualIncome : Int
  monthlyExpenses : Int
  employmentStatus : String
  savingsGoal : Option Int
  riskTolerance : Option String
deriving DecidableEq

/-- Zod validation of financialProfileSchema: nonnegative numbers, enum fields. -/
def financialProfileValid (p : FinancialProfile) : Bool :=
  decide (0 ≤ p.annualIncome) && decide (0 ≤ p.monthlyExpenses) &&
  ["full-time", "part-time", "self-employed", "unemployed", "retired"].contains p.employmentStatus &&
  (match p.riskTolerance with
   | none => true
   | some r => ["low", "medium", "high"].contains r)

/-- users table row (shared/schema). -/
structure User where
  id : Nat
  username : String
  password : String
  fullName : Option String
  avatarUrl : Option String
  email : Option String
  phone : Option String
  financialProfile : Option FinancialProfile
  onboardingCompleted : Bool
deriving DecidableEq

/-- insertUserSchema: username, password, fullName, avatarUrl. -/
structure InsertUser where
  username : String
  password : String
  fullName : Option String
  avatarUrl : Option String
deriving DecidableEq

/-- chat_messages row. -/
structure ChatMessage where
  id : Nat
  userId : Nat
  content : String
  isUserMessage : Bool
  timestamp : Nat
  metadata : JsonObj
deriving DecidableEq

/-- insertChatMessageSchema: chat message without id and timestamp. -/
structure InsertChatMessage where
  userId : Nat
  content : String
  isUserMessage : Bool
  metadata : JsonObj
deriving DecidableEq

/-- portfolioAllocationSchema. -/
structure PortfolioAllocation where
  stocks : Int
  bonds : Int
  realEstate : Int
  cash : Int
  alternatives : Int
deriving DecidableEq

/-- budgetCategorySchema (monthly budget entry of a financial snapshot). -/
structure BudgetCategory where
  name : String
  allocated : Int
  spent : Int
deriving DecidableEq

/-- billSchema. -/
structure Bill where
  name : String
  amount : Int
  dueInDays : Int
deriving DecidableEq

/-- expenseCategorySchema. -/
structure ExpenseCategory where
  name : String
  amount : Int
deriving DecidableEq

/-- financial_data row as built at runtime by the onboarding handler's
initialData object spread into createFinancialData. -/
structure FinancialData where
  id : Nat
  userId : Nat
  netWorth : Int
  assets : Int
  liabilities : Int
  portfolioAllocation : PortfolioAllocation
  monthlyBudget : List BudgetCategory
  upcomingBills : List Bill
  expenseBreakdown : List ExpenseCategory
  lastUpdated : Nat
deriving DecidableEq

/-- insertFinancialDataSchema: financial snapshot without id and lastUpdated. -/
structure InsertFinancialData where
  userId : Nat
  netWorth : Int
  assets : Int
  liabilities : Int
  portfolioAllocation : PortfolioAllocation
  monthlyBudget : List BudgetCategory
  upcomingBills : List Bill
  expenseBreakdown : List ExpenseCategory
deriving DecidableEq

/-- documentUploadSchema: documentType enum, filename, Base64 fileContent. -/
structure DocumentUpload where
  documentType : String
  filename : String
  fileContent : String
deriving DecidableEq

/-- user_documents row. -/
structure UserDocument where
  id : Nat
  userId : Nat
  filename : String
  documentType : String
  uploadDate : Nat
  content : String
  metadata : JsonObj
  insights : JsonObj
deriving DecidableEq

/-- investmentSchema payload (InvestmentData). -/
structure InvestmentData where
  name : String
  type : String
  value : Int
  purchaseDate : Option String
  purchasePrice : Option Int
  currentPrice : Option Int
  quantity : Option Int
  notes : Option String
deriving DecidableEq

/-- investments row (InvestmentRecord). -/
structure InvestmentRecord where
  id : Nat
  userId : Nat
  name : String
  type : String
  value : Int
  purchaseDate : Option String
  purchasePrice : Option Int
  currentPrice : Option Int
  quantity : Option Int
  notes : Option String
  metadata : JsonObj
deriving DecidableEq

/-- budgetSchema category entry. -/
structure BudgetCatData where
  name : String
  amount : Int
  spent : Option Int
deriving DecidableEq

/-- budgetSchema payload (BudgetData); status has a zod default, so it is
always present after parsing. -/
structure BudgetData where
  name : String
  startDate : Option String
  endDate : Option String
  totalBudget : Int
  categories : List BudgetCatData
  status : String
deriving DecidableEq

/-- budgets row (BudgetRecord). -/
structure BudgetRecord where
  id : Nat
  userId : Nat
  name : String
  startDate : Option String
  endDate : Option String
  totalBudget : Int
  categories : List BudgetCatData
  status : String
deriving DecidableEq

/-- riskAnalysisSchema payload. -/
structure RiskAnalysisData where
  riskScore : Int
  portfolioHealth : String
  diversificationScore : Int
  volatilityMetrics : JsonObj
  recommendations : List String
  scenarioAnalysis : JsonObj
deriving DecidableEq

/-- risk_analysis row. -/
structure RiskAnalysisRecord where
  id : Nat
  userId : Nat
  analysisDate : Nat
  riskScore : Int
  portfolioHealth : String
  diversificationScore : Int
  volatilityMetrics : JsonObj
  recommendations : List String
  scenarioAnalysis : JsonObj
deriving DecidableEq

/-- forecastSchema scenarios object. -/
structure ForecastScenarios where
  best : JsonObj
  worst : JsonObj
  mostLikely : JsonObj
deriving DecidableEq

/-- forecastSchema payload. -/
structure ForecastData where
  horizon : String
  scenarios : ForecastScenarios
  assumptions : JsonObj
  projections : JsonObj
deriving DecidableEq

/-- forecasts row. -/
structure ForecastRecord where
  id : Nat
  userId : Nat
  forecastDate : Nat
  horizon : String
  scenarios : ForecastScenarios
  assumptions : JsonObj
  projections : JsonObj
deriving DecidableEq

/-- MemStorage state (server/storage.ts): primary collections, id counters,
and per-user id indexes. -/
structure MemStorage where
  users : List (Nat × User)
  financialData : List (Nat × FinancialData)
  chatMessages : List (Nat × List ChatMessage)
  documents : List (Nat × UserDocument)
  investments : List (Nat × InvestmentRecord)
  budgets : List (Nat × BudgetRecord)
  riskAnalyses : List (Nat × RiskAnalysisRecord)
  forecasts : List (Nat × ForecastRecord)
  userId : Nat
  financialDataId : Nat
  chatMessageId : Nat
  documentId : Nat
  investmentId : Nat
  budgetId : Nat
  riskAnalysisId : Nat
  forecastId : Nat
  userDocuments : List (Nat × List Nat)
  userInvestments : List (Nat × List Nat)
  userBudgets : List (Nat × List Nat)
  userRiskAnalyses : List (Nat × List Nat)
  userForecasts : List (Nat × List Nat)
deriving DecidableEq

/-- MemStorage constructor: empty maps, all id counters start at 1. -/
def MemStorage.init : MemStorage where
  users := []
  financialData := []
  chatMessages := []
  documents := []
  investments := []
  budgets := []
  riskAnalyses := []
  forecasts := []
  userId := 1
  financialDataId := 1
  chatMessageId := 1
  documentId := 1
  investmentId := 1
  budgetId := 1
  riskAnalysisId := 1
  forecastId := 1
  userDocuments := []
  userInvestments := []
  userBudgets := []
  userRiskAnalyses := []
  userForecasts := []

/-- MemStorage.getUser. -/
def MemStorage.getUser (s : MemStorage) (id : Nat) : Option User :=
  mapGet s.users id

/-- MemStorage.getUserByUsername: first user in insertion order whose
username matches (Array.from(map.values()).find(...)). -/
def MemStorage.getUserByUsername (s : MemStorage) (username : String) : Option User :=
  (mapValues s.users).find? (fun u => u.username == username)

/-- MemStorage.createUser: allocate the next user id, null profile fields,
onboardingCompleted false. -/
def MemStorage.createUser (s : MemStorage) (insertUser : InsertUser) :
    User × MemStorage :=
  let id := s.userId
  let user : User :=
    { id := id
      username := insertUser.username
      password := insertUser.password
      fullName := insertUser.fullName
      avatarUrl := insertUser.avatarUrl
      email := none
      phone := none
      financialProfile := none
      onboardingCompleted := false }
  (user, { s with userId := s.userId + 1, users := mapSet s.users id user })

/-- MemStorage.updateUserFinancialProfile; `none` models the thrown
"User not found" error. -/
def MemStorage.updateUserFinancialProfile (s : MemStorage) (userId : Nat)
    (profile : FinancialProfile) : Option (User × MemStorage) :=
  match s.getUser userId with
  | none => none
  | some user =>
      let updatedUser := { user with financialProfile := some profile }
      some (updatedUser, { s with users := mapSet s.users userId updatedUser })

/-- MemStorage.completeUserOnboarding; `none` models the thrown
"User not found" error. -/
def MemStorage.completeUserOnboarding (s : MemStorage) (userId : Nat) :
    Option (User × MemStorage) :=
  match s.getUser userId with
  | none => none
  | some user =>
      let updatedUser := { user with onboardingCompleted := true }
      some (updatedUser, { s with users := mapSet s.users userId updatedUser })

/-- MemStorage.createFinancialData: allocates the next snapshot id but keys
the map entry by the payload's userId. -/
def MemStorage.createFinancialData (s : MemStorage) (data : InsertFinancialData)
    (now : Nat) : FinancialData × MemStorage :=
  let id := s.financialDataId
  let financialData : FinancialData :=
    { id := id
      userId := data.userId
      netWorth := data.netWorth
      assets := data.assets
      liabilities := data.liabilities
      portfolioAllocation := data.portfolioAllocation
      monthlyBudget := data.monthlyBudget
      upcomingBills := data.upcomingBills
      expenseBreakdown := data.expenseBreakdown
      lastUpdated := now }
  (financialData,
   { s with
      financialDataId := s.financialDataId + 1
      financialData := mapSet s.financialData data.userId financialData })

/-- MemStorage.getFinancialData: lookup keyed by userId. -/
def MemStorage.getFinancialData (s : MemStorage) (userId : Nat) :
    Option FinancialData :=
  mapGet s.financialData userId

/-- MemStorage.getChatMessages: the user's message list, or []. -/
def MemStorage.getChatMessages (s : MemStorage) (userId : Nat) :
    List ChatMessage :=
  (mapGet s.chatMessages userId).getD []

/-- MemStorage.createChatMessage: allocate the next message id, stamp the
timestamp, append to the user's message list. -/
def MemStorage.createChatMessage (s : MemStorage) (message : InsertChatMessage)
    (now : Nat) : ChatMessage × MemStorage :=
  let id := s.chatMessageId
  let chatMessage : ChatMessage :=
    { id := id
      userId := message.userId
      content := message.content
      isUserMessage := message.isUserMessage
      timestamp := now
      metadata := message.metadata }
  let userMessages := (mapGet s.chatMessages message.userId).getD []
  (chatMessage,
   { s with
      chatMessageId := s.chatMessageId + 1
      chatMessages :=
        mapSet s.chatMessages message.userId (userMessages ++ [chatMessage]) })

/-- MemStorage.getDocuments: resolve the owner's index, dropping missing ids. -/
def MemStorage.getDocuments (s : MemStorage) (userId : Nat) :
    List UserDocument :=
  ((mapGet s.userDocuments userId).getD []).filterMap (mapGet s.documents)

/-- MemStorage.getDocument. -/
def MemStorage.getDocument (s : MemStorage) (id : Nat) : Option UserDocument :=
  mapGet s.documents id

/-- MemStorage.createDocument: copies filename and documentType from the
payload, sets content to "", metadata and insights to the empty object, and
appends the new id to the owner's document index. -/
def MemStorage.createDocument (s : MemStorage) (userId : Nat)
    (document : DocumentUpload) (now : Nat) : UserDocument × MemStorage :=
  let id := s.documentId
  let newDocument : UserDocument :=
    { id := id
      userId := userId
      filename := document.filename
      documentType := document.documentType
      uploadDate := now
      content := ""
      metadata := []
      insights := [] }
  let userDocs := (mapGet s.userDocuments userId).getD []
  (newDocument,
   { s with
      documentId := s.documentId + 1
      documents := mapSet s.documents id newDocument
      userDocuments := mapSet s.userDocuments userId (userDocs ++ [id]) })

/-- MemStorage.getInvestments: resolve the owner's index, dropping missing ids. -/
def MemStorage.getInvestments (s : MemStorage) (userId : Nat) :
    List InvestmentRecord :=
  ((mapGet s.userInvestments userId).getD []).filterMap (mapGet s.investments)

/-- MemStorage.getInvestment. -/
def MemStorage.getInvestment (s : MemStorage) (id : Nat) :
    Option InvestmentRecord :=
  mapGet s.investments id

/-- Record built by MemStorage.createInvestment from a payload. -/
def mkInvestmentRecord (id userId : Nat) (investment : InvestmentData) :
    InvestmentRecord :=
  { id := id
    userId := userId
    name := investment.name
    type := investment.type
    value := investment.value
    purchaseDate := investment.purchaseDate
    purchasePrice := investment.purchasePrice
    currentPrice := investment.currentPrice
    quantity := investment.quantity
    notes := investment.notes
    metadata := [] }

/-- MemStorage.createInvestment: allocate the next id, store the record, and
append the id to the owner's investment index. -/
def MemStorage.createInvestment (s : MemStorage) (userId : Nat)
    (investment : InvestmentData) : InvestmentRecord × MemStorage :=
  let id := s.investmentId
  let newInvestment := mkInvestmentRecord id userId investment
  let userInvs := (mapGet s.userInvestments userId).getD []
  (newInvestment,
   { s with
      investmentId := s.investmentId + 1
      investments := mapSet s.investments id newInvestment
      userInvestments := mapSet s.userInvestments userId (userInvs ++ [id]) })

/-- Merge of an update payload over an existing investment record:
name/type/value always taken from the payload, purchaseDate with JS `||`
(falsy fallback), the remaining optional fields with JS `??`. -/
def mergeInvestment (existing : InvestmentRecord) (investment : InvestmentData) :
    InvestmentRecord :=
  { existing with
      name := investment.name
      type := investment.type
      value := investment.value
      purchaseDate := jsOrString investment.purchaseDate existing.purchaseDate
      purchasePrice := jsNullish investment.purchasePrice existing.purchasePrice
      currentPrice := jsNullish investment.currentPrice existing.currentPrice
      quantity := jsNullish investment.quantity existing.quantity
      notes := jsNullish investment.notes existing.notes }

/-- MemStorage.updateInvestment; `none` models the thrown "not found" error
(state unchanged in that case). -/
def MemStorage.updateInvestment (s : MemStorage) (id : Nat)
    (investment : InvestmentData) : Option (InvestmentRecord × MemStorage) :=
  match mapGet s.investments id with
  | none => none
  | some existingInvestment =>
      let updatedInvestment := mergeInvestment existingInvestment investment
      some (updatedInvestment,
        { s with investments := mapSet s.investments id updatedInvestment })

/-- MemStorage.deleteInvestment: false if absent; otherwise remove the record
and filter its id out of the owner's index. -/
def MemStorage.deleteInvestment (s : MemStorage) (id : Nat) :
    Bool × MemStorage :=
  match mapGet s.investments id with
  | none => (false, s)
  | some investment =>
      let userId := investment.userId
      let userInvs := (mapGet s.userInvestments userId).getD []
      let updatedUserInvs := userInvs.filter (fun invId => invId ≠ id)
      (true,
       { s with
          investments := mapErase s.investments id
          userInvestments := mapSet s.userInvestments userId updatedUserInvs })

/-- MemStorage.getBudgets: resolve the owner's index, dropping missing ids. -/
def MemStorage.getBudgets (s : MemStorage) (userId : Nat) : List BudgetRecord :=
  ((mapGet s.userBudgets userId).getD []).filterMap (mapGet s.budgets)

/-- MemStorage.getBudget. -/
def MemStorage.getBudget (s : MemStorage) (id : Nat) : Option BudgetRecord :=
  mapGet s.budgets id

/-- Record built by MemStorage.createBudget from a payload. -/
def mkBudgetRecord (id userId : Nat) (budget : BudgetData) : BudgetRecord :=
  { id := id
    userId := userId
    name := budget.name
    startDate := budget.startDate
    endDate := budget.endDate
    totalBudget := budget.totalBudget
    categories := budget.categories
    status := budget.status }

/-- MemStorage.createBudget: allocate the next id, store the record, and
append the id to the owner's budget index. -/
def MemStorage.createBudget (s : MemStorage) (userId : Nat)
    (budget : BudgetData) : BudgetRecord × MemStorage :=
  let id := s.budgetId
  let newBudget := mkBudgetRecord id userId budget
  let userBudgets := (mapGet s.userBudgets userId).getD []
  (newBudget,
   { s with
      budgetId := s.budgetId + 1
      budgets := mapSet s.budgets id newBudget
      userBudgets := mapSet s.userBudgets userId (userBudgets ++ [id]) })

/-- Merge of an update payload over an existing budget record: name,
totalBudget, categories and status always from the payload; the dates with
JS `||` (falsy fallback). -/
def mergeBudget (existing : BudgetRecord) (budget : BudgetData) : BudgetRecord :=
  { existing with
      name := budget.name
      startDate := jsOrString budget.startDate existing.startDate
      endDate := jsOrString budget.endDate existing.endDate
      totalBudget := budget.totalBudget
      categories := budget.categories
      status := budget.status }

/-- MemStorage.updateBudget; `none` models the thrown "not found" error. -/
def MemStorage.updateBudget (s : MemStorage) (id : Nat) (budget : BudgetData) :
    Option (BudgetRecord × MemStorage) :=
  match mapGet s.budgets id with
  | none => none
  | some existingBudget =>
      let updatedBudget := mergeBudget existingBudget budget
      some (updatedBudget,
        { s with budgets := mapSet s.budgets id updatedBudget })

/-- MemStorage.deleteBudget: false if absent; otherwise remove the record and
filter its id out of the owner's index. -/
def MemStorage.deleteBudget (s : MemStorage) (id : Nat) : Bool × MemStorage :=
  match mapGet s.budgets id with
  | none => (false, s)
  | some budget =>
      let userId := budget.userId
      let userBudgets := (mapGet s.userBudgets userId).getD []
      let updatedUserBudgets := userBudgets.filter (fun budgetId => budgetId ≠ id)
      (true,
       { s with
          budgets := mapErase s.budgets id
          userBudgets := mapSet s.userBudgets userId updatedUserBudgets })

/-- MemStorage.getRiskAnalyses: resolve the owner's index, dropping missing ids. -/
def MemStorage.getRiskAnalyses (s : MemStorage) (userId : Nat) :
    List RiskAnalysisRecord :=
  ((mapGet s.userRiskAnalyses userId).getD []).filterMap (mapGet s.riskAnalyses)

/-- MemStorage.createRiskAnalysis: allocate the next id, stamp analysisDate,
store the record, and append the id to the owner's index. -/
def MemStorage.createRiskAnalysis (s : MemStorage) (userId : Nat)
    (analysis : RiskAnalysisData) (now : Nat) :
    RiskAnalysisRecord × MemStorage :=
  let id := s.riskAnalysisId
  let newAnalysis : RiskAnalysisRecord :=
    { id := id
      userId := userId
      analysisDate := now
      riskScore := analysis.riskScore
      portfolioHealth := analysis.portfolioHealth
      diversificationScore := analysis.diversificationScore
      volatilityMetrics := analysis.volatilityMetrics
      recommendations := analysis.recommendations
      scenarioAnalysis := analysis.scenarioAnalysis }
  let userAnalyses := (mapGet s.userRiskAnalyses userId).getD []
  (newAnalysis,
   { s with
      riskAnalysisId := s.riskAnalysisId + 1
      riskAnalyses := mapSet s.riskAnalyses id newAnalysis
      userRiskAnalyses := mapSet s.userRiskAnalyses userId (userAnalyses ++ [id]) })

/-- MemStorage.getForecasts: resolve the owner's index, dropping missing ids. -/
def MemStorage.getForecasts (s : MemStorage) (userId : Nat) :
    List ForecastRecord :=
  ((mapGet s.userForecasts userId).getD []).filterMap (mapGet s.forecasts)

/-- MemStorage.createForecast: allocate the next id, stamp forecastDate,
store the record, and append the id to the owner's index. -/
def MemStorage.createForecast (s : MemStorage) (userId : Nat)
    (forecast : ForecastData) (now : Nat) : ForecastRecord × MemStorage :=
  let id := s.forecastId
  let newForecast : ForecastRecord :=
    { id := id
      userId := userId
      forecastDate := now
      horizon := forecast.horizon
      scenarios := forecast.scenarios
      assumptions := forecast.assumptions
      projections := forecast.projections }
  let userForecasts := (mapGet s.userForecasts userId).getD []
  (newForecast,
   { s with
      forecastId := s.forecastId + 1
      forecasts := mapSet s.forecasts id newForecast
      userForecasts := mapSet s.userForecasts userId (userForecasts ++ [id]) })

/-!
Route handlers (server/routes.ts). Each handler is modelled as a function of
the store state, the authenticated session user id (ensureAuth has already
passed), and the parsed request; it returns the HTTP status, any body datum
the claims need, and the resulting store state. A typed payload argument
models a successful zod parse of the request body.
-/

/-- Onboarding payload rejected by zod (400 branch of POST /api/onboarding). -/
def onboardingHandler (s : MemStorage) (userId : Nat) (body : FinancialProfile)
    (now : Nat) : Nat × MemStorage :=
  if financialProfileValid body then
    match s.updateUserFinancialProfile userId body with
    | none => (500, s)
    | some (_, s1) =>
        match s1.completeUserOnboarding userId with
        | none => (500, s1)
        | some (_, s2) =>
            let initialData : InsertFinancialData :=
              { userId := userId
                netWorth := 124500
                assets := 189300
                liabilities := 64800
                portfolioAllocation :=
                  { stocks := 45, bonds := 25, realEstate := 15, cash := 10,
                    alternatives := 5 }
                monthlyBudget :=
                  [ { name := "Housing", allocated := 2000, spent := 1800 },
                    { name := "Transportation", allocated := 500, spent := 450 },
                    { name := "Food & Dining", allocated := 600, spent := 620 },
                    { name := "Entertainment", allocated := 300, spent := 180 } ]
                upcomingBills :=
                  [ { name := "Mortgage", amount := 1450, dueInDays := 5 },
                    { name := "Auto Loan", amount := 350, dueInDays := 12 },
                    { name := "Credit Card", amount := 680, dueInDays := 18 } ]
                expenseBreakdown :=
                  [ { name := "Housing", amount := 1800 },
                    { name := "Food", amount := 620 },
                    { name := "Transport", amount := 450 },
                    { name := "Utilities", amount := 280 },
                    { name := "Entertainment", amount := 180 },
                    { name := "Subscriptions", amount := 87 } ] }
            let (_, s3) := s2.createFinancialData initialData now
            (200, s3)
  else (400, s)

/-- GET /api/auth/status: (authenticated, onboardingCompleted) as reported for
a session holding the given user id; passport deserializes the session user
from the store on each request. -/
def authStatusHandler (s : MemStorage) (session : Option Nat) : Bool × Bool :=
  match session with
  | none => (false, false)
  | some uid =>
      match s.getUser uid with
      | none => (false, false)
      | some u => (true, u.onboardingCompleted)

/-- GET /api/financial-data. -/
def financialDataHandler (s : MemStorage) (userId : Nat) :
    Nat × Option FinancialData :=
  match s.getFinancialData userId with
  | none => (404, none)
  | some financialData => (200, some financialData)

/-- POST /api/auth/register response: status, error message body (if any),
resulting store state. -/
structure RegisterResponse where
  status : Nat
  message : Option String
  state : MemStorage
deriving DecidableEq

/-- POST /api/auth/register: reject a duplicate username with 400 before any
store mutation; otherwise create the user and answer 201. -/
def registerHandler (s : MemStorage) (body : InsertUser) : RegisterResponse :=
  match s.getUserByUsername body.username with
  | some _ => { status := 400, message := some "Username already exists", state := s }
  | none =>
      let (_, s1) := s.createUser body
      { status := 201, message := none, state := s1 }

/-- Outcome of the axios call to the sidecar from a handler that needs a
synchronous answer: either a response payload or a network-level failure. -/
inductive SidecarResult where
  | ok (response : String)
  | unreachable
deriving DecidableEq

/-- POST /api/chat/query: validate {message} (min length 1), persist the
user's message, call the sidecar; on sidecar failure answer 500 with no AI
message persisted, on success persist the AI message and answer 200. -/
def chatQueryHandler (s : MemStorage) (userId : Nat) (message : String)
    (sidecar : SidecarResult) (now : Nat) : Nat × Option String × MemStorage :=
  if message.length < 1 then (400, none, s)
  else
    let (_, s1) := s.createChatMessage
      { userId := userId, content := message, isUserMessage := true, metadata := [] } now
    match sidecar with
    | .unreachable => (500, none, s1)
    | .ok aiResponse =>
        let (_, s2) := s1.createChatMessage
          { userId := userId, content := aiResponse, isUserMessage := false,
            metadata := [] } now
        (200, some aiResponse, s2)

/-- GET /api/documents/:id: 404 if absent, 403 if owned by another user. -/
def getDocumentHandler (s : MemStorage) (authId docId : Nat) :
    Nat × MemStorage :=
  match s.getDocument docId with
  | none => (404, s)
  | some document =>
      if document.userId ≠ authId then (403, s) else (200, s)

/-- GET /api/investments/:id: 404 if absent, 403 if owned by another user. -/
def getInvestmentHandler (s : MemStorage) (authId invId : Nat) :
    Nat × MemStorage :=
  match s.getInvestment invId with
  | none => (404, s)
  | some investment =>
      if investment.userId ≠ authId then (403, s) else (200, s)

/-- PUT /api/investments/:id: parse the body, then 404 if absent, 403 if owned
by another user, otherwise apply the update. -/
def updateInvestmentHandler (s : MemStorage) (authId invId : Nat)
    (body : InvestmentData) : Nat × MemStorage :=
  match s.getInvestment invId with
  | none => (404, s)
  | some existingInvestment =>
      if existingInvestment.userId ≠ authId then (403, s)
      else
        match s.updateInvestment invId body with
        | none => (500, s)
        | some (_, s1) => (200, s1)

/-- DELETE /api/investments/:id: 404 if absent, 403 if owned by another user,
otherwise delete and answer 204. -/
def deleteInvestmentHandler (s : MemStorage) (authId invId : Nat) :
    Nat × MemStorage :=
  match s.getInvestment invId with
  | none => (404, s)
  | some investment =>
      if investment.userId ≠ authId then (403, s)
      else
        let (success, s1) := s.deleteInvestment invId
        if success then (204, s1) else (500, s1)

/-- GET /api/budgets/:id: 404 if absent, 403 if owned by another user. -/
def getBudgetHandler (s : MemStorage) (authId budId : Nat) : Nat × MemStorage :=
  match s.getBudget budId with
  | none => (404, s)
  | some budget =>
      if budget.userId ≠ authId then (403, s) else (200, s)

/-- PUT /api/budgets/:id: parse the body, then 404 if absent, 403 if owned by
another user, otherwise apply the update. -/
def updateBudgetHandler (s : MemStorage) (authId budId : Nat)
    (body : BudgetData) : Nat × MemStorage :=
  match s.getBudget budId with
  | none => (404, s)
  | some existingBudget =>
      if existingBudget.userId ≠ authId then (403, s)
      else
        match s.updateBudget budId body with
        | none => (500, s)
        | some (_, s1) => (200, s1)

/-- DELETE /api/budgets/:id: 404 if absent, 403 if owned by another user,
otherwise delete and answer 204. -/
def deleteBudgetHandler (s : MemStorage) (authId budId : Nat) :
    Nat × MemStorage :=
  match s.getBudget budId with
  | none => (404, s)
  | some budget =>
      if budget.userId ≠ authId then (403, s)
      else
        let (success, s1) := s.deleteBudget budId
        if success then (204, s1) else (500, s1)

/-!
Sidecar readiness poll (server/python-bridge.ts, startPythonServer). The
checkServer closure retries the /health probe on a fixed delay; the returned
Promise resolves at the first successful probe and has no rejection path and
no attempt cap. `health k` says whether the k-th probe succeeds.
-/

/-- Outcome of the readiness poll after `n` probes: the index of the first
successful probe if one occurred, otherwise `none`, meaning the loop is still
polling — the source gives the poll no failure outcome at all. -/
def pollOutcomeWithin (health : Nat → Bool) (n : Nat) : Option Nat :=
  (List.range n).find? (fun k => health k)

/-!
Lemmas about the JS `Map` model.
-/

@[simp] theorem mapGet_nil {α : Type} (k : Nat) :
    mapGet ([] : List (Nat × α)) k = none := rfl

@[simp] theorem mapGet_cons {α : Type} (a k : Nat) (b : α) (l : List (Nat × α)) :
    mapGet ((a, b) :: l) k = if a = k then some b else mapGet l k := rfl

@[simp] theorem mapSet_nil {α : Type} (k : Nat) (v : α) :
    mapSet ([] : List (Nat × α)) k v = [(k, v)] := rfl

@[simp] theorem mapSet_cons {α : Type} (a k : Nat) (b v : α) (l : List (Nat × α)) :
    mapSet ((a, b) :: l) k v =
      if a = k then (k, v) :: l else (a, b) :: mapSet l k v := rfl

@[simp] theorem mapErase_nil {α : Type} (k : Nat) :
    mapErase ([] : List (Nat × α)) k = [] := rfl

@[simp] theorem mapErase_cons {α : Type} (a k : Nat) (b : α) (l : List (Nat × α)) :
    mapErase ((a, b) :: l) k = if a = k then l else (a, b) :: mapErase l k := rfl

@[simp] theorem natNodup_nil : natNodup [] = true := rfl

@[simp] theorem natNodup_cons (x : Nat) (xs : List Nat) :
    natNodup (x :: xs) = ((!xs.contains x) && natNodup xs) := rfl

theorem natNodup_iff (l : List Nat) : natNodup l = true ↔ l.Nodup := by
  induction l with
  | nil => simp
  | cons x xs ih => simp [ih, List.contains]

theorem mapGet_set_self {α : Type} (l : List (Nat × α)) (k : Nat) (v : α) :
    mapGet (mapSet l k v) k = some v := by
  induction l with
  | nil => simp
  | cons e rest ih =>
      obtain ⟨a, b⟩ := e
      by_cases h : a = k
      · simp [h]
      · simp [h, ih]

theorem mapGet_set_ne {α : Type} (l : List (Nat × α)) (k k' : Nat) (v : α)
    (h : k' ≠ k) : mapGet (mapSet l k v) k' = mapGet l k' := by
  induction l with
  | nil => simp [Ne.symm h]
  | cons e rest ih =>
      obtain ⟨a, b⟩ := e
      by_cases ha : a = k
      · subst ha
        simp [Ne.symm h]
      · by_cases ha' : a = k'
        · simp [ha, ha', h]
        · simp [ha, ha', ih]

theorem mapGet_erase_ne {α : Type} (l : List (Nat × α)) (k k' : Nat)
    (h : k' ≠ k) : mapGet (mapErase l k) k' = mapGet l k' := by
  induction l with
  | nil => simp
  | cons e rest ih =>
      obtain ⟨a, b⟩ := e
      by_cases ha : a = k
      · subst ha
        simp [Ne.symm h]
      · by_cases ha' : a = k'
        · simp [ha, ha', h]
        · simp [ha, ha', ih]

theorem mapGet_mem {α : Type} {l : List (Nat × α)} {k : Nat} {v : α}
    (h : mapGet l k = some v) : (k, v) ∈ l := by
  induction l with
  | nil => simp at h
  | cons e rest ih =>
      obtain ⟨a, b⟩ := e
      by_cases ha : a = k
      · subst ha
        simp at h
        simp [h]
      · simp [ha] at h
        exact List.mem_cons_of_mem _ (ih h)

theorem mapGet_eq_none_iff {α : Type} {l : List (Nat × α)} {k : Nat} :
    mapGet l k = none ↔ ∀ e ∈ l, e.1 ≠ k := by
  induction l with
  | nil => simp
  | cons e rest ih =>
      obtain ⟨a, b⟩ := e
      by_cases ha : a = k
      · subst ha
        simp
      · simp [ha, ih]

theorem keysNodup_iff {α : Type} (l : List (Nat × α)) :
    keysNodup l = true ↔ (l.map Prod.fst).Nodup := natNodup_iff _

theorem keysNodup_cons {α : Type} (a : Nat) (b : α) (l : List (Nat × α)) :
    keysNodup ((a, b) :: l) = true ↔
      (∀ e ∈ l, e.1 ≠ a) ∧ keysNodup l = true := by
  rw [keysNodup_iff, keysNodup_iff l, List.map_cons, List.nodup_cons]
  simp only [List.mem_map]
  constructor
  · rintro ⟨h1, h2⟩
    refine ⟨?_, h2⟩
    intro e he hea
    exact h1 ⟨e, he, hea⟩
  · rintro ⟨h1, h2⟩
    refine ⟨?_, h2⟩
    rintro ⟨e, he, hea⟩
    exact h1 e he hea

theorem mapGet_eq_of_mem {α : Type} {l : List (Nat × α)} {k : Nat} {v : α}
    (hnd : keysNodup l = true) (h : (k, v) ∈ l) : mapGet l k = some v := by
  induction l with
  | nil => simp at h
  | cons e rest ih =>
      obtain ⟨a, b⟩ := e
      rw [keysNodup_cons] at hnd
      obtain ⟨h1, h2⟩ := hnd
      rcases List.mem_cons.mp h with h3 | h3
      · cases h3
        simp
      · have ha : a ≠ k := Ne.symm (h1 (k, v) h3)
        simp [ha, ih h2 h3]

theorem mem_mapSet_self {α : Type} (l : List (Nat × α)) (k : Nat) (v : α) :
    (k, v) ∈ mapSet l k v := by
  induction l with
  | nil => simp
  | cons e rest ih =>
      obtain ⟨a, b⟩ := e
      by_cases ha : a = k
      · simp [ha]
      · simp only [mapSet_cons, if_neg ha]
        exact List.mem_cons_of_mem _ ih

theorem mem_mapSet_of_mem {α : Type} {l : List (Nat × α)} {k : Nat} {v : α}
    {e : Nat × α} (he : e ∈ l) (hk : e.1 ≠ k) : e ∈ mapSet l k v := by
  induction l with
  | nil => simp at he
  | cons e' rest ih =>
      obtain ⟨a, b⟩ := e'
      rcases List.mem_cons.mp he with h3 | h3
      · subst h3
        have ha : a ≠ k := by simpa using hk
        simp only [mapSet_cons, if_neg ha]
        exact List.mem_cons_self _ _
      · by_cases ha : a = k
        · simp only [mapSet_cons, if_pos ha]
          exact List.mem_cons_of_mem _ h3
        · simp only [mapSet_cons, if_neg ha]
          exact List.mem_cons_of_mem _ (ih h3)

theorem mem_mapSet_sub {α : Type} {l : List (Nat × α)} {k : Nat} {v : α}
    {e : Nat × α} (h : e ∈ mapSet l k v) : e = (k, v) ∨ e ∈ l := by
  induction l with
  | nil => exact Or.inl (by simpa using h)
  | cons e' rest ih =>
      obtain ⟨a, b⟩ := e'
      by_cases ha : a = k
      · rw [mapSet_cons, if_pos ha] at h
        rcases List.mem_cons.mp h with h3 | h3
        · exact Or.inl h3
        · exact Or.inr (List.mem_cons_of_mem _ h3)
      · rw [mapSet_cons, if_neg ha] at h
        rcases List.mem_cons.mp h with h3 | h3
        · exact Or.inr (h3 ▸ List.mem_cons_self _ _)
        · rcases ih h3 with h4 | h4
          · exact Or.inl h4
          · exact Or.inr (List.mem_cons_of_mem _ h4)

theorem mem_mapSet_nodup {α : Type} {l : List (Nat × α)} {k : Nat} {v : α}
    {e : Nat × α} (hnd : keysNodup l = true) (h : e ∈ mapSet l k v) :
    e = (k, v) ∨ (e ∈ l ∧ e.1 ≠ k) := by
  induction l with
  | nil => exact Or.inl (by simpa using h)
  | cons e' rest ih =>
      obtain ⟨a, b⟩ := e'
      rw [keysNodup_cons] at hnd
      obtain ⟨h1, h2⟩ := hnd
      by_cases ha : a = k
      · subst ha
        rw [mapSet_cons, if_pos rfl] at h
        rcases List.mem_cons.mp h with h3 | h3
        · exact Or.inl h3
        · exact Or.inr ⟨List.mem_cons_of_mem _ h3, h1 e h3⟩
      · rw [mapSet_cons, if_neg ha] at h
        rcases List.mem_cons.mp h with h3 | h3
        · subst h3
          exact Or.inr ⟨List.mem_cons_self _ _, ha⟩
        · rcases ih h2 h3 with h4 | h4
          · exact Or.inl h4
          · exact Or.inr ⟨List.mem_cons_of_mem _ h4.1, h4.2⟩

theorem keysNodup_set {α : Type} (l : List (Nat × α)) (k : Nat) (v : α)
    (h : keysNodup l = true) : keysNodup (mapSet l k v) = true := by
  induction l with
  | nil => simp [keysNodup, natNodup]
  | cons e rest ih =>
      obtain ⟨a, b⟩ := e
      rw [keysNodup_cons] at h
      obtain ⟨h1, h2⟩ := h
      by_cases ha : a = k
      · subst ha
        rw [mapSet_cons, if_pos rfl, keysNodup_cons]
        exact ⟨h1, h2⟩
      · rw [mapSet_cons, if_neg ha, keysNodup_cons]
        refine ⟨?_, ih h2⟩
        intro e he
        rcases mem_mapSet_sub he with h3 | h3
        · rw [h3]
          exact fun hk => ha hk.symm
        · exact h1 e h3

theorem mem_mapErase_sub {α : Type} {l : List (Nat × α)} {k : Nat}
    {e : Nat × α} (h : e ∈ mapErase l k) : e ∈ l := by
  induction l with
  | nil => simp at h
  | cons e' rest ih =>
      obtain ⟨a, b⟩ := e'
      by_cases ha : a = k
      · rw [mapErase_cons, if_pos ha] at h
        exact List.mem_cons_of_mem _ h
      · rw [mapErase_cons, if_neg ha] at h
        rcases List.mem_cons.mp h with h3 | h3
        · exact h3 ▸ List.mem_cons_self _ _
        · exact List.mem_cons_of_mem _ (ih h3)

theorem mem_mapErase_nodup {α : Type} {l : List (Nat × α)} {k : Nat}
    {e : Nat × α} (hnd : keysNodup l = true) :
    e ∈ mapErase l k ↔ e ∈ l ∧ e.1 ≠ k := by
  induction l with
  | nil => simp
  | cons e' rest ih =>
      obtain ⟨a, b⟩ := e'
      rw [keysNodup_cons] at hnd
      obtain ⟨h1, h2⟩ := hnd
      by_cases ha : a = k
      · subst ha
        rw [mapErase_cons, if_pos rfl]
        constructor
        · intro h3
          exact ⟨List.mem_cons_of_mem _ h3, h1 e h3⟩
        · rintro ⟨h3, h4⟩
          rcases List.mem_cons.mp h3 with h5 | h5
          · exact absurd (by rw [h5]) h4
          · exact h5
      · rw [mapErase_cons, if_neg ha]
        constructor
        · intro h3
          rcases List.mem_cons.mp h3 with h5 | h5
          · exact ⟨h5 ▸ List.mem_cons_self _ _, by rw [h5]; exact ha⟩
          · obtain ⟨h6, h7⟩ := (ih h2).mp h5
            exact ⟨List.mem_cons_of_mem _ h6, h7⟩
        · rintro ⟨h3, h4⟩
          rcases List.mem_cons.mp h3 with h5 | h5
          · exact h5 ▸ List.mem_cons_self _ _
          · exact List.mem_cons_of_mem _ ((ih h2).mpr ⟨h5, h4⟩)

theorem keysNodup_erase {α : Type} (l : List (Nat × α)) (k : Nat)
    (h : keysNodup l = true) : keysNodup (mapErase l k) = true := by
  induction l with
  | nil => simp [keysNodup, natNodup]
  | cons e rest ih =>
      obtain ⟨a, b⟩ := e
      rw [keysNodup_cons] at h
      obtain ⟨h1, h2⟩ := h
      by_cases ha : a = k
      · rw [mapErase_cons, if_pos ha]
        exact h2
      · rw [mapErase_cons, if_neg ha, keysNodup_cons]
        exact ⟨fun e he => h1 e (mem_mapErase_sub he), ih h2⟩

theorem mapGet_erase_self {α : Type} (l : List (Nat × α)) (k : Nat)
    (h : keysNodup l = true) : mapGet (mapErase l k) k = none := by
  rw [mapGet_eq_none_iff]
  intro e he
  exact ((mem_mapErase_nodup h).mp he).2

/-!
Index-primary consistency invariant (spec section 3): for every entity type
with a per-owner index, an id appears in some owner's index exactly when a
record with that id and that owner sits in the primary collection; indexes
are duplicate-free; every stored id is below the table's id counter (ids are
allocated monotonically and never reused).
-/

/-- Record side of the invariant: the entry's key is the record's id, below
the counter, and listed in its owner's index. -/
def recOK {ρ : Type} (index : List (Nat × List Nat)) (counter : Nat)
    (rid rowner : ρ → Nat) (e : Nat × ρ) : Bool :=
  (rid e.2 == e.1) && decide (e.1 < counter) &&
  ((mapGet index (rowner e.2)).getD []).contains e.1

/-- Index side of the invariant: the entry's id list is duplicate-free and
every listed id resolves to a record owned by that user. -/
def idxOK {ρ : Type} (recs : List (Nat × ρ)) (rowner : ρ → Nat)
    (e : Nat × List Nat) : Bool :=
  natNodup e.2 && e.2.all (fun i =>
    match mapGet recs i with
    | some r => rowner r == e.1
    | none => false)

/-- Consistency of one entity table: duplicate-free maps plus both sides of
the index-primary correspondence. -/
def tableOK {ρ : Type} (recs : List (Nat × ρ)) (index : List (Nat × List Nat))
    (counter : Nat) (rid rowner : ρ → Nat) : Bool :=
  keysNodup recs && keysNodup index &&
  recs.all (recOK index counter rid rowner) &&
  index.all (idxOK recs rowner)

theorem ownedBy_iff {ρ : Type} (recs : List (Nat × ρ)) (rowner : ρ → Nat)
    (i u : Nat) :
    (match mapGet recs i with
     | some r => rowner r == u
     | none => false) = true ↔ ∃ r, mapGet recs i = some r ∧ rowner r = u := by
  cases h : mapGet recs i <;> simp

theorem tableOK_iff {ρ : Type} (recs : List (Nat × ρ))
    (index : List (Nat × List Nat)) (counter : Nat) (rid rowner : ρ → Nat) :
    tableOK recs index counter rid rowner = true ↔
      (keysNodup recs = true ∧ keysNodup index = true ∧
       (∀ e ∈ recs, rid e.2 = e.1 ∧ e.1 < counter ∧
          e.1 ∈ (mapGet index (rowner e.2)).getD []) ∧
       (∀ e ∈ index, e.2.Nodup ∧
          ∀ i ∈ e.2, ∃ r, mapGet recs i = some r ∧ rowner r = e.1)) := by
  simp only [tableOK, Bool.and_eq_true, List.all_eq_true, recOK, idxOK,
    beq_iff_eq, decide_eq_true_eq, natNodup_iff, ownedBy_iff,
    List.elem_eq_mem]
  constructor
  · rintro ⟨⟨⟨h1, h2⟩, h3⟩, h4⟩
    refine ⟨h1, h2, fun e he => ?_, fun e he => ?_⟩
    · obtain ⟨⟨ha, hb⟩, hc⟩ := h3 e he
      exact ⟨ha, hb, hc⟩
    · exact h4 e he
  · rintro ⟨h1, h2, h3, h4⟩
    refine ⟨⟨⟨h1, h2⟩, fun e he => ?_⟩, h4⟩
    obtain ⟨ha, hb, hc⟩ := h3 e he
    exact ⟨⟨ha, hb⟩, hc⟩

/-- Creation preserves the table invariant: a fresh id (the counter) is
stored with the matching record and appended to its owner's index, and the
counter advances. -/
theorem tableOK_create {ρ : Type} {recs : List (Nat × ρ)}
    {index : List (Nat × List Nat)} {counter : Nat} {rid rowner : ρ → Nat}
    (r : ρ) (u : Nat)
    (hOK : tableOK recs index counter rid rowner = true)
    (hid : rid r = counter) (how : rowner r = u) :
    tableOK (mapSet recs counter r)
      (mapSet index u (((mapGet index u).getD []) ++ [counter]))
      (counter + 1) rid rowner = true := by
  rw [tableOK_iff] at hOK ⊢
  obtain ⟨h1, h2, h3, h4⟩ := hOK
  have hfreshRec : ∀ e ∈ recs, e.1 ≠ counter := by
    intro e he
    exact Nat.ne_of_lt (h3 e he).2.1
  have hfreshIdx : ∀ i ∈ (mapGet index u).getD [], i ≠ counter := by
    intro i hi
    cases hidx : mapGet index u with
    | none => rw [hidx] at hi; simp at hi
    | some l0 =>
        rw [hidx] at hi
        simp only [Option.getD_some] at hi
        obtain ⟨hnd0, hres⟩ := h4 (u, l0) (mapGet_mem hidx)
        obtain ⟨r0, hr0, _⟩ := hres i hi
        exact Nat.ne_of_lt (h3 (i, r0) (mapGet_mem hr0)).2.1
  refine ⟨keysNodup_set _ _ _ h1, keysNodup_set _ _ _ h2, ?_, ?_⟩
  · intro e he
    rcases mem_mapSet_nodup h1 he with he1 | ⟨he1, hne⟩
    · subst he1
      refine ⟨hid, Nat.lt_succ_self _, ?_⟩
      rw [how, mapGet_set_self]
      simp
    · obtain ⟨ha, hb, hc⟩ := h3 e he1
      refine ⟨ha, Nat.lt_succ_of_lt hb, ?_⟩
      by_cases hu : rowner e.2 = u
      · rw [hu, mapGet_set_self]
        simp only [Option.getD_some]
        rw [hu] at hc
        exact List.mem_append_left _ hc
      · rw [mapGet_set_ne _ _ _ _ hu]
        exact hc
  · intro e he
    rcases mem_mapSet_nodup h2 he with he1 | ⟨he1, hne⟩
    · subst he1
      constructor
      · have hnd0 : ((mapGet index u).getD []).Nodup := by
          cases hidx : mapGet index u with
          | none => simp
          | some l0 =>
              simp only [Option.getD_some]
              exact (h4 (u, l0) (mapGet_mem hidx)).1
        simp only [List.nodup_append, List.nodup_singleton]
        refine ⟨hnd0, by simp, ?_⟩
        intro i hi hj
        exact hfreshIdx i hi (List.mem_singleton.mp hj)
      · intro i hi
        rcases List.mem_append.mp hi with hi1 | hi1
        · have hex : ∃ r2, mapGet recs i = some r2 ∧ rowner r2 = u := by
            cases hidx : mapGet index u with
            | none => rw [hidx] at hi1; simp at hi1
            | some l0 =>
                rw [hidx] at hi1
                simp only [Option.getD_some] at hi1
                simpa using (h4 (u, l0) (mapGet_mem hidx)).2 i hi1
          obtain ⟨r0, hr0, hro⟩ := hex
          refine ⟨r0, ?_, hro⟩
          rw [mapGet_set_ne _ _ _ _ (hfreshIdx i hi1)]
          exact hr0
        · rcases List.mem_singleton.mp hi1 with rfl
          exact ⟨r, mapGet_set_self _ _ _, how⟩
    · obtain ⟨hnd0, hres⟩ := h4 e he1
      refine ⟨hnd0, ?_⟩
      intro i hi
      obtain ⟨r0, hr0, hro⟩ := hres i hi
      have hne2 : i ≠ counter :=
        Nat.ne_of_lt (h3 (i, r0) (mapGet_mem hr0)).2.1
      refine ⟨r0, ?_, hro⟩
      rw [mapGet_set_ne _ _ _ _ hne2]
      exact hr0

/-- In-place update preserves the table invariant when the replacement record
keeps the id and owner of the record it replaces. -/
theorem tableOK_update {ρ : Type} {recs : List (Nat × ρ)}
    {index : List (Nat × List Nat)} {counter : Nat} {rid rowner : ρ → Nat}
    {id : Nat} {r0 r1 : ρ}
    (hOK : tableOK recs index counter rid rowner = true)
    (hget : mapGet recs id = some r0)
    (hid : rid r1 = rid r0) (how : rowner r1 = rowner r0) :
    tableOK (mapSet recs id r1) index counter rid rowner = true := by
  rw [tableOK_iff] at hOK ⊢
  obtain ⟨h1, h2, h3, h4⟩ := hOK
  have hr0 : rid r0 = id ∧ id < counter ∧
      id ∈ (mapGet index (rowner r0)).getD [] := h3 (id, r0) (mapGet_mem hget)
  refine ⟨keysNodup_set _ _ _ h1, h2, ?_, ?_⟩
  · intro e he
    rcases mem_mapSet_nodup h1 he with he1 | ⟨he1, _⟩
    · subst he1
      exact ⟨by rw [hid, hr0.1], hr0.2.1, by rw [how]; exact hr0.2.2⟩
    · exact h3 e he1
  · intro e he
    obtain ⟨hnd0, hres⟩ := h4 e he
    refine ⟨hnd0, ?_⟩
    intro i hi
    obtain ⟨r2, hr2, hro⟩ := hres i hi
    by_cases hii : i = id
    · subst hii
      have : r2 = r0 := by
        rw [hget] at hr2
        exact (Option.some_inj.mp hr2).symm
      subst this
      exact ⟨r1, mapGet_set_self _ _ _, by rw [how, hro]⟩
    · refine ⟨r2, ?_, hro⟩
      rw [mapGet_set_ne _ _ _ _ hii]
      exact hr2

/-- Deletion preserves the table invariant: the record leaves the primary
collection and its id is filtered out of its owner's index. -/
theorem tableOK_delete {ρ : Type} {recs : List (Nat × ρ)}
    {index : List (Nat × List Nat)} {counter : Nat} {rid rowner : ρ → Nat}
    {id : Nat} {r0 : ρ}
    (hOK : tableOK recs index counter rid rowner = true)
    (hget : mapGet recs id = some r0) :
    tableOK (mapErase recs id)
      (mapSet index (rowner r0)
        (((mapGet index (rowner r0)).getD []).filter (fun i => i ≠ id)))
      counter rid rowner = true := by
  rw [tableOK_iff] at hOK ⊢
  obtain ⟨h1, h2, h3, h4⟩ := hOK
  refine ⟨keysNodup_erase _ _ h1, keysNodup_set _ _ _ h2, ?_, ?_⟩
  · intro e he
    obtain ⟨he1, hne⟩ := (mem_mapErase_nodup h1).mp he
    obtain ⟨ha, hb, hc⟩ := h3 e he1
    refine ⟨ha, hb, ?_⟩
    by_cases hu : rowner e.2 = rowner r0
    · rw [hu, mapGet_set_self]
      simp only [Option.getD_some]
      rw [List.mem_filter]
      rw [hu] at hc
      exact ⟨hc, by simpa using hne⟩
    · rw [mapGet_set_ne _ _ _ _ hu]
      exact hc
  · intro e he
    rcases mem_mapSet_nodup h2 he with he1 | ⟨he1, hne⟩
    · subst he1
      constructor
      · have hnd0 : ((mapGet index (rowner r0)).getD []).Nodup := by
          cases hidx : mapGet index (rowner r0) with
          | none => simp
          | some l0 =>
              simp only [Option.getD_some]
              exact (h4 (rowner r0, l0) (mapGet_mem hidx)).1
        exact hnd0.filter _
      · intro i hi
        rw [List.mem_filter] at hi
        obtain ⟨hi1, hi2⟩ := hi
        have hii : i ≠ id := by simpa using hi2
        have hex : ∃ r2, mapGet recs i = some r2 ∧ rowner r2 = rowner r0 := by
          cases hidx : mapGet index (rowner r0) with
          | none => rw [hidx] at hi1; simp at hi1
          | some l0 =>
              rw [hidx] at hi1
              simp only [Option.getD_some] at hi1
              simpa using (h4 (rowner r0, l0) (mapGet_mem hidx)).2 i hi1
        obtain ⟨r2, hr2, hro⟩ := hex
        refine ⟨r2, ?_, hro⟩
        rw [mapGet_erase_ne _ _ _ hii]
        exact hr2
    · obtain ⟨hnd0, hres⟩ := h4 e he1
      refine ⟨hnd0, ?_⟩
      intro i hi
      obtain ⟨r2, hr2, hro⟩ := hres i hi
      have hii : i ≠ id := by
        intro hieq
        subst hieq
        rw [hget] at hr2
        have : r2 = r0 := (Option.some_inj.mp hr2).symm
        subst this
        exact hne (hro ▸ rfl)
      refine ⟨r2, ?_, hro⟩
      rw [mapGet_erase_ne _ _ _ hii]
      exact hr2

/-- Membership reading of the invariant: an id is listed in some owner's
index exactly when a record with that id and that owner is stored. -/
theorem tableOK_mem_index_iff {ρ : Type} {recs : List (Nat × ρ)}
    {index : List (Nat × List Nat)} {counter : Nat} {rid rowner : ρ → Nat}
    (h : tableOK recs index counter rid rowner = true) (u i : Nat) :
    i ∈ (mapGet index u).getD [] ↔
      ∃ r, mapGet recs i = some r ∧ rowner r = u := by
  rw [tableOK_iff] at h
  obtain ⟨h1, h2, h3, h4⟩ := h
  constructor
  · intro hi
    cases hidx : mapGet index u with
    | none => rw [hidx] at hi; simp at hi
    | some l0 =>
        rw [hidx] at hi
        simp only [Option.getD_some] at hi
        simpa using (h4 (u, l0) (mapGet_mem hidx)).2 i hi
  · rintro ⟨r, hr, hu⟩
    simpa [hu] using (h3 (i, r) (mapGet_mem hr)).2.2

/-- Invariant for the documents table. -/
def docTableOK (s : MemStorage) : Bool :=
  tableOK s.documents s.userDocuments s.documentId
    UserDocument.id UserDocument.userId

/-- Invariant for the investments table. -/
def invTableOK (s : MemStorage) : Bool :=
  tableOK s.investments s.userInvestments s.investmentId
    InvestmentRecord.id InvestmentRecord.userId

/-- Invariant for the budgets table. -/
def budTableOK (s : MemStorage) : Bool :=
  tableOK s.budgets s.userBudgets s.budgetId
    BudgetRecord.id BudgetRecord.userId

/-- Invariant for the risk-analysis table. -/
def raTableOK (s : MemStorage) : Bool :=
  tableOK s.riskAnalyses s.userRiskAnalyses s.riskAnalysisId
    RiskAnalysisRecord.id RiskAnalysisRecord.userId

/-- Invariant for the forecasts table. -/
def fcTableOK (s : MemStorage) : Bool :=
  tableOK s.forecasts s.userForecasts s.forecastId
    ForecastRecord.id ForecastRecord.userId

/-- Index-primary consistency of every indexed entity table of the store. -/
def storeWF (s : MemStorage) : Bool :=
  docTableOK s && invTableOK s && budTableOK s && raTableOK s && fcTableOK s

theorem storeWF_createDocument (s : MemStorage) (u : Nat) (d : DocumentUpload)
    (now : Nat) (h : storeWF s = true) :
    storeWF (s.createDocument u d now).2 = true := by
  simp only [storeWF, Bool.and_eq_true] at h ⊢
  obtain ⟨⟨⟨⟨hdoc, hinv⟩, hbud⟩, hra⟩, hfc⟩ := h
  exact ⟨⟨⟨⟨tableOK_create _ u hdoc rfl rfl, hinv⟩, hbud⟩, hra⟩, hfc⟩

theorem storeWF_createInvestment (s : MemStorage) (u : Nat) (p : InvestmentData)
    (h : storeWF s = true) : storeWF (s.createInvestment u p).2 = true := by
  simp only [storeWF, Bool.and_eq_true] at h ⊢
  obtain ⟨⟨⟨⟨hdoc, hinv⟩, hbud⟩, hra⟩, hfc⟩ := h
  exact ⟨⟨⟨⟨hdoc, tableOK_create (mkInvestmentRecord s.investmentId u p) u hinv rfl rfl⟩,
    hbud⟩, hra⟩, hfc⟩

theorem storeWF_updateInvestment {s : MemStorage} {id : Nat}
    {p : InvestmentData} {r : InvestmentRecord} {s1 : MemStorage}
    (hup : s.updateInvestment id p = some (r, s1)) (h : storeWF s = true) :
    storeWF s1 = true := by
  simp only [storeWF, Bool.and_eq_true] at h ⊢
  obtain ⟨⟨⟨⟨hdoc, hinv⟩, hbud⟩, hra⟩, hfc⟩ := h
  cases hget : mapGet s.investments id with
  | none => rw [MemStorage.updateInvestment, hget] at hup; cases hup
  | some r0 =>
      rw [MemStorage.updateInvestment, hget] at hup
      cases hup
      exact ⟨⟨⟨⟨hdoc, tableOK_update hinv hget rfl rfl⟩, hbud⟩, hra⟩, hfc⟩

theorem storeWF_deleteInvestment (s : MemStorage) (id : Nat)
    (h : storeWF s = true) : storeWF (s.deleteInvestment id).2 = true := by
  simp only [storeWF, Bool.and_eq_true] at h ⊢
  obtain ⟨⟨⟨⟨hdoc, hinv⟩, hbud⟩, hra⟩, hfc⟩ := h
  cases hget : mapGet s.investments id with
  | none =>
      simp only [MemStorage.deleteInvestment, hget]
      exact ⟨⟨⟨⟨hdoc, hinv⟩, hbud⟩, hra⟩, hfc⟩
  | some r0 =>
      simp only [MemStorage.deleteInvestment, hget]
      exact ⟨⟨⟨⟨hdoc, tableOK_delete hinv hget⟩, hbud⟩, hra⟩, hfc⟩

theorem storeWF_createBudget (s : MemStorage) (u : Nat) (p : BudgetData)
    (h : storeWF s = true) : storeWF (s.createBudget u p).2 = true := by
  simp only [storeWF, Bool.and_eq_true] at h ⊢
  obtain ⟨⟨⟨⟨hdoc, hinv⟩, hbud⟩, hra⟩, hfc⟩ := h
  exact ⟨⟨⟨⟨hdoc, hinv⟩, tableOK_create (mkBudgetRecord s.budgetId u p) u hbud rfl rfl⟩,
    hra⟩, hfc⟩

theorem storeWF_updateBudget {s : MemStorage} {id : Nat} {p : BudgetData}
    {r : BudgetRecord} {s1 : MemStorage}
    (hup : s.updateBudget id p = some (r, s1)) (h : storeWF s = true) :
    storeWF s1 = true := by
  simp only [storeWF, Bool.and_eq_true] at h ⊢
  obtain ⟨⟨⟨⟨hdoc, hinv⟩, hbud⟩, hra⟩, hfc⟩ := h
  cases hget : mapGet s.budgets id with
  | none => rw [MemStorage.updateBudget, hget] at hup; cases hup
  | some r0 =>
      rw [MemStorage.updateBudget, hget] at hup
      cases hup
      exact ⟨⟨⟨⟨hdoc, hinv⟩, tableOK_update hbud hget rfl rfl⟩, hra⟩, hfc⟩

theorem storeWF_deleteBudget (s : MemStorage) (id : Nat)
    (h : storeWF s = true) : storeWF (s.deleteBudget id).2 = true := by
  simp only [storeWF, Bool.and_eq_true] at h ⊢
  obtain ⟨⟨⟨⟨hdoc, hinv⟩, hbud⟩, hra⟩, hfc⟩ := h
  cases hget : mapGet s.budgets id with
  | none =>
      simp only [MemStorage.deleteBudget, hget]
      exact ⟨⟨⟨⟨hdoc, hinv⟩, hbud⟩, hra⟩, hfc⟩
  | some r0 =>
      simp only [MemStorage.deleteBudget, hget]
      exact ⟨⟨⟨⟨hdoc, hinv⟩, tableOK_delete hbud hget⟩, hra⟩, hfc⟩

theorem storeWF_createRiskAnalysis (s : MemStorage) (u : Nat)
    (p : RiskAnalysisData) (now : Nat) (h : storeWF s = true) :
    storeWF (s.createRiskAnalysis u p now).2 = true := by
  simp only [storeWF, Bool.and_eq_true] at h ⊢
  obtain ⟨⟨⟨⟨hdoc, hinv⟩, hbud⟩, hra⟩, hfc⟩ := h
  exact ⟨⟨⟨⟨hdoc, hinv⟩, hbud⟩, tableOK_create _ u hra rfl rfl⟩, hfc⟩

theorem storeWF_createForecast (s : MemStorage) (u : Nat) (p : ForecastData)
    (now : Nat) (h : storeWF s = true) :
    storeWF (s.createForecast u p now).2 = true := by
  simp only [storeWF, Bool.and_eq_true] at h ⊢
  obtain ⟨⟨⟨⟨hdoc, hinv⟩, hbud⟩, hra⟩, hfc⟩ := h
  exact ⟨⟨⟨⟨hdoc, hinv⟩, hbud⟩, hra⟩, tableOK_create _ u hfc rfl rfl⟩

/-- One create/update/delete operation on an indexed entity table of the
Record Store. -/
inductive StoreOp where
  | createDocument (userId : Nat) (d : DocumentUpload) (now : Nat)
  | createInvestment (userId : Nat) (p : InvestmentData)
  | updateInvestment (id : Nat) (p : InvestmentData)
  | deleteInvestment (id : Nat)
  | createBudget (userId : Nat) (p : BudgetData)
  | updateBudget (id : Nat) (p : BudgetData)
  | deleteBudget (id : Nat)
  | createRiskAnalysis (userId : Nat) (p : RiskAnalysisData) (now : Nat)
  | createForecast (userId : Nat) (p : ForecastData) (now : Nat)
deriving DecidableEq

/-- Effect of one store operation on the store state (an update of a missing
id throws, leaving the state unchanged). -/
def applyOp (op : StoreOp) (s : MemStorage) : MemStorage :=
  match op with
  | .createDocument u d now => (s.createDocument u d now).2
  | .createInvestment u p => (s.createInvestment u p).2
  | .updateInvestment id p =>
      match s.updateInvestment id p with
      | none => s
      | some r => r.2
  | .deleteInvestment id => (s.deleteInvestment id).2
  | .createBudget u p => (s.createBudget u p).2
  | .updateBudget id p =>
      match s.updateBudget id p with
      | none => s
      | some r => r.2
  | .deleteBudget id => (s.deleteBudget id).2
  | .createRiskAnalysis u p now => (s.createRiskAnalysis u p now).2
  | .createForecast u p now => (s.createForecast u p now).2

/-- Effect of a sequence of store operations. -/
def applyOps (ops : List StoreOp) (s : MemStorage) : MemStorage :=
  ops.foldl (fun s op => applyOp op s) s

theorem storeWF_applyOp (op : StoreOp) (s : MemStorage) (h : storeWF s = true) :
    storeWF (applyOp op s) = true := by
  cases op with
  | createDocument u d now => exact storeWF_createDocument s u d now h
  | createInvestment u p => exact storeWF_createInvestment s u p h
  | updateInvestment id p =>
      rw [applyOp]
      cases hup : s.updateInvestment id p with
      | none => exact h
      | some r =>
          obtain ⟨r1, s1⟩ := r
          exact storeWF_updateInvestment hup h
  | deleteInvestment id => exact storeWF_deleteInvestment s id h
  | createBudget u p => exact storeWF_createBudget s u p h
  | updateBudget id p =>
      rw [applyOp]
      cases hup : s.updateBudget id p with
      | none => exact h
      | some r =>
          obtain ⟨r1, s1⟩ := r
          exact storeWF_updateBudget hup h
  | deleteBudget id => exact storeWF_deleteBudget s id h
  | createRiskAnalysis u p now => exact storeWF_createRiskAnalysis s u p now h
  | createForecast u p now => exact storeWF_createForecast s u p now h

/-!
Auxiliary lemmas for the round-trip, idempotence and list-after-delete
claims.
-/

theorem mapSet_mapSet {α : Type} (l : List (Nat × α)) (k : Nat) (v w : α) :
    mapSet (mapSet l k v) k w = mapSet l k w := by
  induction l with
  | nil => simp
  | cons e rest ih =>
      obtain ⟨a, b⟩ := e
      by_cases ha : a = k
      · simp [ha]
      · simp [ha, ih]

theorem jsNullish_idem {α : Type} (a b : Option α) :
    jsNullish a (jsNullish a b) = jsNullish a b := by
  cases a <;> rfl

theorem jsOrString_idem (a b : Option String) :
    jsOrString a (jsOrString a b) = jsOrString a b := by
  cases a with
  | none => rfl
  | some v =>
      by_cases hv : v = "" <;> simp [jsOrString, hv]

theorem mergeInvestment_idem (e : InvestmentRecord) (p : InvestmentData) :
    mergeInvestment (mergeInvestment e p) p = mergeInvestment e p := by
  simp [mergeInvestment, jsNullish_idem, jsOrString_idem]

theorem mergeBudget_idem (e : BudgetRecord) (p : BudgetData) :
    mergeBudget (mergeBudget e p) p = mergeBudget e p := by
  simp [mergeBudget, jsOrString_idem]

/-- Number of entries of a modelled JS `Map` stored under one key. -/
def countKey {α : Type} (l : List (Nat × α)) (k : Nat) : Nat :=
  (l.filter (fun e => e.1 = k)).length

theorem countKey_le_one_of_nodup {α : Type} (l : List (Nat × α)) (k : Nat)
    (h : keysNodup l = true) : countKey l k ≤ 1 := by
  induction l with
  | nil => simp [countKey]
  | cons e rest ih =>
      obtain ⟨a, b⟩ := e
      rw [keysNodup_cons] at h
      obtain ⟨h1, h2⟩ := h
      by_cases ha : a = k
      · subst ha
        have hz : countKey rest a = 0 := by
          simp only [countKey, List.length_eq_zero]
          rw [List.filter_eq_nil_iff]
          intro e he
          simpa using h1 e he
        have hc : countKey ((a, b) :: rest) a = countKey rest a + 1 := by
          simp [countKey, List.filter_cons]
        omega
      · simpa [countKey, List.filter_cons, ha] using ih h2

/-- If every id in a list resolves through `f` to a record whose `g`-projection
is the id itself, then resolving the whole list and projecting gives back the
list. -/
theorem filterMap_map_of_resolves {α : Type} (l : List Nat) (f : Nat → Option α)
    (g : α → Nat) (h : ∀ i ∈ l, ∃ r, f i = some r ∧ g r = i) :
    (l.filterMap f).map g = l := by
  induction l with
  | nil => simp
  | cons x xs ih =>
      obtain ⟨r, hr, hg⟩ := h x (List.mem_cons_self _ _)
      simp [List.filterMap_cons, hr, hg,
        ih (fun i hi => h i (List.mem_cons_of_mem _ hi))]

/-- N successive investment creates for one owner (N client requests). -/
def createInvestments (s : MemStorage) (u : Nat) (ps : List InvestmentData) :
    MemStorage :=
  ps.foldl (fun s p => (s.createInvestment u p).2) s

theorem createInvestments_spec (ps : List InvestmentData) (s : MemStorage)
    (u : Nat) :
    (createInvestments s u ps).investmentId = s.investmentId + ps.length ∧
    (mapGet (createInvestments s u ps).userInvestments u).getD [] =
      ((mapGet s.userInvestments u).getD []) ++
        (List.range ps.length).map (fun i => s.investmentId + i) ∧
    (∀ k, s.investmentId ≤ k → k < s.investmentId + ps.length →
        ∃ rec, mapGet (createInvestments s u ps).investments k = some rec ∧
          rec.id = k ∧ rec.userId = u) ∧
    (∀ k, k < s.investmentId →
        mapGet (createInvestments s u ps).investments k =
          mapGet s.investments k) := by
  induction ps generalizing s with
  | nil =>
      refine ⟨by simp [createInvestments], by simp [createInvestments], ?_, ?_⟩
      · intro k hk1 hk2
        simp at hk2
        omega
      · intro k _
        simp [createInvestments]
  | cons p rest ih =>
      have hstep : createInvestments s u (p :: rest) =
          createInvestments (s.createInvestment u p).2 u rest := rfl
      obtain ⟨ih1, ih2, ih3, ih4⟩ := ih (s.createInvestment u p).2
      have hcid : (s.createInvestment u p).2.investmentId = s.investmentId + 1 := rfl
      have hcidx : (mapGet (s.createInvestment u p).2.userInvestments u).getD [] =
          ((mapGet s.userInvestments u).getD []) ++ [s.investmentId] := by
        show (mapGet (mapSet s.userInvestments u
          (((mapGet s.userInvestments u).getD []) ++ [s.investmentId])) u).getD [] = _
        rw [mapGet_set_self]
        rfl
      have hcget : mapGet (s.createInvestment u p).2.investments s.investmentId =
          some (mkInvestmentRecord s.investmentId u p) := mapGet_set_self _ _ _
      have hcget2 : ∀ k, k ≠ s.investmentId →
          mapGet (s.createInvestment u p).2.investments k = mapGet s.investments k := by
        intro k hk
        exact mapGet_set_ne _ _ _ _ hk
      refine ⟨?_, ?_, ?_, ?_⟩
      · rw [hstep, ih1, hcid]
        simp [List.length_cons]
        omega
      · rw [hstep, ih2, hcidx, hcid]
        rw [List.length_cons, List.range_succ_eq_map, List.map_cons, List.map_map]
        have hfun : ((fun i => s.investmentId + i) ∘ Nat.succ) =
            (fun i => s.investmentId + 1 + i) := by
          funext i
          simp [Function.comp]
          omega
        rw [hfun, List.append_assoc]
        rfl
      · intro k hk1 hk2
        by_cases hke : k = s.investmentId
        · subst hke
          refine ⟨mkInvestmentRecord s.investmentId u p, ?_, rfl, rfl⟩
          rw [hstep]
          rw [ih4 s.investmentId (by rw [hcid]; omega), hcget]
        · rw [hstep]
          refine ih3 k (by rw [hcid]; omega) ?_
          rw [hcid]
          simp only [List.length_cons] at hk2
          omega
      · intro k hk
        rw [hstep, ih4 k (by rw [hcid]; omega), hcget2 k (by omega)]

/-!
Sample payloads and states used to evaluate the proved theorems on concrete
inputs.
-/

/-- Sample investment payload. -/
def sampleInvestment : InvestmentData :=
  { name := "Index Fund", type := "etf", value := 1000,
    purchaseDate := some "2024-01-01", purchasePrice := some 90,
    currentPrice := some 100, quantity := some 10, notes := none }

/-- Second sample investment payload (partial optional fields). -/
def sampleInvestment2 : InvestmentData :=
  { name := "Bond Fund", type := "bond", value := 500,
    purchaseDate := none, purchasePrice := none,
    currentPrice := some 55, quantity := none, notes := some "ladder" }

/-- Sample budget payload. -/
def sampleBudget : BudgetData :=
  { name := "Monthly", startDate := some "2024-02-01", endDate := none,
    totalBudget := 2000,
    categories := [{ name := "Food", amount := 500, spent := some 100 }],
    status := "draft" }

/-- Sample document upload payload. -/
def sampleDocument : DocumentUpload :=
  { documentType := "tax", filename := "w2.pdf", fileContent := "QQ==" }

/-- Sample risk-analysis payload. -/
def sampleRisk : RiskAnalysisData :=
  { riskScore := 55, portfolioHealth := "good", diversificationScore := 70,
    volatilityMetrics := [], recommendations := ["diversify"],
    scenarioAnalysis := [] }

/-- Sample forecast payload. -/
def sampleForecast : ForecastData :=
  { horizon := "medium_term", scenarios := { best := [], worst := [], mostLikely := [] },
    assumptions := [], projections := [] }

/-- Sample financial-profile payload (the onboarding scenario of the spec). -/
def sampleProfile : FinancialProfile :=
  { annualIncome := 75000, monthlyExpenses := 3500,
    employmentStatus := "full-time", savingsGoal := some 10000,
    riskTolerance := some "medium" }

/-- Sample registration payload. -/
def sampleInsertUser : InsertUser :=
  { username := "alice", password := "secret1", fullName := none, avatarUrl := none }

/-- Second sample registration payload. -/
def sampleInsertUser2 : InsertUser :=
  { username := "bob", password := "secret2", fullName := none, avatarUrl := none }

/-- Sample snapshot payload. -/
def sampleFinancialInsert : InsertFinancialData :=
  { userId := 1, netWorth := 100, assets := 200, liabilities := 100,
    portfolioAllocation :=
      { stocks := 45, bonds := 25, realEstate := 15, cash := 10, alternatives := 5 },
    monthlyBudget := [], upcomingBills := [], expenseBreakdown := [] }

/-- Store with two registered users (ids 1 and 2). -/
def twoUserState : MemStorage :=
  ((MemStorage.init.createUser sampleInsertUser).2.createUser sampleInsertUser2).2

/-- Store where, additionally, user 1 owns investment 1, budget 1 and
document 1. -/
def ownedState : MemStorage :=
  (((twoUserState.createInvestment 1 sampleInvestment).2.createBudget
      1 sampleBudget).2.createDocument 1 sampleDocument 7).2

/-!
Claim theorems.
-/

theorem storeWF_applyOps (ops : List StoreOp) (s : MemStorage)
    (h : storeWF s = true) : storeWF (applyOps ops s) = true := by
  induction ops generalizing s with
  | nil => simpa [applyOps] using h
  | cons op rest ih =>
      have hstep : applyOps (op :: rest) s = applyOps rest (applyOp op s) := rfl
      rw [hstep]
      exact ih _ (storeWF_applyOp op s h)

/-- C7: for every entity type with a per-owner index (documents, investments,
budgets, risk analyses, forecasts), every sequence of store operations
(create, update, delete) preserves the invariant that an id appears in some
owner's index exactly when a record with that id and that owner is present in
the primary collection — in particular no dangling index entry remains after
a delete. -/
theorem claimC7_index_primary_consistency (ops : List StoreOp) (s : MemStorage)
    (h : storeWF s = true) :
    storeWF (applyOps ops s) = true ∧
    (∀ u i, i ∈ (mapGet (applyOps ops s).userDocuments u).getD [] ↔
        ∃ r, mapGet (applyOps ops s).documents i = some r ∧ r.userId = u) ∧
    (∀ u i, i ∈ (mapGet (applyOps ops s).userInvestments u).getD [] ↔
        ∃ r, mapGet (applyOps ops s).investments i = some r ∧ r.userId = u) ∧
    (∀ u i, i ∈ (mapGet (applyOps ops s).userBudgets u).getD [] ↔
        ∃ r, mapGet (applyOps ops s).budgets i = some r ∧ r.userId = u) ∧
    (∀ u i, i ∈ (mapGet (applyOps ops s).userRiskAnalyses u).getD [] ↔
        ∃ r, mapGet (applyOps ops s).riskAnalyses i = some r ∧ r.userId = u) ∧
    (∀ u i, i ∈ (mapGet (applyOps ops s).userForecasts u).getD [] ↔
        ∃ r, mapGet (applyOps ops s).forecasts i = some r ∧ r.userId = u) := by
  have hwf := storeWF_applyOps ops s h
  have hsplit := hwf
  simp only [storeWF, Bool.and_eq_true] at hsplit
  obtain ⟨⟨⟨⟨hdoc, hinv⟩, hbud⟩, hra⟩, hfc⟩ := hsplit
  exact ⟨hwf,
    fun u i => tableOK_mem_index_iff hdoc u i,
    fun u i => tableOK_mem_index_iff hinv u i,
    fun u i => tableOK_mem_index_iff hbud u i,
    fun u i => tableOK_mem_index_iff hra u i,
    fun u i => tableOK_mem_index_iff hfc u i⟩

/-- Witness for C7 at a concrete operation sequence from the empty store. -/
theorem claimC7_witness :
    storeWF MemStorage.init = true ∧
    storeWF (applyOps
      [StoreOp.createInvestment 1 sampleInvestment,
       StoreOp.createBudget 1 sampleBudget,
       StoreOp.createDocument 2 sampleDocument 3,
       StoreOp.updateInvestment 1 sampleInvestment2,
       StoreOp.deleteInvestment 1] MemStorage.init) = true := by
  have h := claimC7_index_primary_consistency
    [StoreOp.createInvestment 1 sampleInvestment,
     StoreOp.createBudget 1 sampleBudget,
     StoreOp.createDocument 2 sampleDocument 3,
     StoreOp.updateInvestment 1 sampleInvestment2,
     StoreOp.deleteInvestment 1] MemStorage.init (by decide)
  exact ⟨by decide, h.1⟩

/-- C4 (code bug): the readiness poll of startPythonServer never fails, no
matter how many probes have gone by — with a sidecar whose health endpoint
never answers successfully, the poll is still running (outcome `none`) after
every number of attempts, so Start never reaches a Failed state and the
promise never settles. -/
theorem claimC4_readiness_poll_never_settles (n : Nat) :
    pollOutcomeWithin (fun _ => false) n = none := by
  simp [pollOutcomeWithin]

/-- C9: a registration whose username already exists answers 400 with the
duplicate-username message and leaves the store untouched. -/
theorem claimC9_duplicate_registration (s : MemStorage) (body : InsertUser)
    (existing : User) (h : s.getUserByUsername body.username = some existing) :
    (registerHandler s body).status = 400 ∧
    (registerHandler s body).message = some "Username already exists" ∧
    (registerHandler s body).state = s ∧
    (registerHandler s body).state.users.length = s.users.length := by
  simp [registerHandler, h]

/-- Witness for C9: re-registering "alice" against the two-user store. -/
theorem claimC9_witness :
    (registerHandler twoUserState
      { username := "alice", password := "other", fullName := none,
        avatarUrl := none }).status = 400 ∧
    (registerHandler twoUserState
      { username := "alice", password := "other", fullName := none,
        avatarUrl := none }).state = twoUserState := by
  have h := claimC9_duplicate_registration twoUserState
    { username := "alice", password := "other", fullName := none,
      avatarUrl := none }
    ((MemStorage.init.createUser sampleInsertUser).1) (by decide)
  exact ⟨h.1, h.2.2.1⟩

/-- C10: createFinancialData keys the stored snapshot by the payload's
userId, so the new snapshot is what getFinancialData returns for that user
(replacing any previous one), other users' snapshots are untouched, and a
store with duplicate-free snapshot keys keeps at most one snapshot per user. -/
theorem claimC10_snapshot_keyed_by_user (s : MemStorage)
    (d : InsertFinancialData) (now : Nat) :
    (s.createFinancialData d now).2.getFinancialData d.userId =
      some (s.createFinancialData d now).1 ∧
    ((s.createFinancialData d now).1).userId = d.userId ∧
    ((s.createFinancialData d now).1).id = s.financialDataId ∧
    (∀ u, u ≠ d.userId →
        (s.createFinancialData d now).2.getFinancialData u =
          s.getFinancialData u) ∧
    (keysNodup s.financialData = true →
        keysNodup ((s.createFinancialData d now).2).financialData = true ∧
        ∀ u, countKey ((s.createFinancialData d now).2).financialData u ≤ 1) := by
  refine ⟨?_, rfl, rfl, ?_, ?_⟩
  · exact mapGet_set_self _ _ _
  · intro u hu
    exact mapGet_set_ne _ _ _ _ hu
  · intro hnd
    have h2 := keysNodup_set s.financialData d.userId
      (s.createFinancialData d now).1 hnd
    exact ⟨h2, fun u => countKey_le_one_of_nodup _ u h2⟩

/-- Witness for C10 from the empty store. -/
theorem claimC10_witness :
    (MemStorage.init.createFinancialData sampleFinancialInsert 3).2.getFinancialData 1 =
      some (MemStorage.init.createFinancialData sampleFinancialInsert 3).1 ∧
    (∀ u, countKey
        ((MemStorage.init.createFinancialData sampleFinancialInsert 3).2).financialData
        u ≤ 1) := by
  have h := claimC10_snapshot_keyed_by_user MemStorage.init sampleFinancialInsert 3
  exact ⟨h.1, (h.2.2.2.2 (by decide)).2⟩

/-- C1: ownership isolation. For every stored investment, budget or document
owned by some user, a request authenticated as a different user `b` that
addresses that record's id through the get-by-id, update or delete handler
answers 403 and leaves the store untouched (so never 200/204); an id that
does not exist at all answers 404, also without touching the store.
Documents expose only a get-by-id handler in the source. -/
theorem claimC1_ownership_isolation (s : MemStorage) (b rid : Nat) :
    (∀ inv : InvestmentRecord, s.getInvestment rid = some inv →
        inv.userId ≠ b →
        getInvestmentHandler s b rid = (403, s) ∧
        (∀ p, updateInvestmentHandler s b rid p = (403, s)) ∧
        deleteInvestmentHandler s b rid = (403, s)) ∧
    (s.getInvestment rid = none →
        getInvestmentHandler s b rid = (404, s) ∧
        (∀ p, updateInvestmentHandler s b rid p = (404, s)) ∧
        deleteInvestmentHandler s b rid = (404, s)) ∧
    (∀ bud : BudgetRecord, s.getBudget rid = some bud → bud.userId ≠ b →
        getBudgetHandler s b rid = (403, s) ∧
        (∀ p, updateBudgetHandler s b rid p = (403, s)) ∧
        deleteBudgetHandler s b rid = (403, s)) ∧
    (s.getBudget rid = none →
        getBudgetHandler s b rid = (404, s) ∧
        (∀ p, updateBudgetHandler s b rid p = (404, s)) ∧
        deleteBudgetHandler s b rid = (404, s)) ∧
    (∀ doc : UserDocument, s.getDocument rid = some doc → doc.userId ≠ b →
        getDocumentHandler s b rid = (403, s)) ∧
    (s.getDocument rid = none → getDocumentHandler s b rid = (404, s)) := by
  refine ⟨?_, ?_, ?_, ?_, ?_, ?_⟩
  · intro inv hinv hown
    refine ⟨?_, fun p => ?_, ?_⟩ <;>
      simp [getInvestmentHandler, updateInvestmentHandler,
        deleteInvestmentHandler, hinv, hown]
  · intro hnone
    refine ⟨?_, fun p => ?_, ?_⟩ <;>
      simp [getInvestmentHandler, updateInvestmentHandler,
        deleteInvestmentHandler, hnone]
  · intro bud hbud hown
    refine ⟨?_, fun p => ?_, ?_⟩ <;>
      simp [getBudgetHandler, updateBudgetHandler, deleteBudgetHandler,
        hbud, hown]
  · intro hnone
    refine ⟨?_, fun p => ?_, ?_⟩ <;>
      simp [getBudgetHandler, updateBudgetHandler, deleteBudgetHandler, hnone]
  · intro doc hdoc hown
    simp [getDocumentHandler, hdoc, hown]
  · intro hnone
    simp [getDocumentHandler, hnone]

/-- Witness for C1: user 2 addressing records owned by user 1, and a missing
id, in a concrete store. -/
theorem claimC1_witness :
    getInvestmentHandler ownedState 2 1 = (403, ownedState) ∧
    deleteInvestmentHandler ownedState 2 1 = (403, ownedState) ∧
    updateInvestmentHandler ownedState 2 1 sampleInvestment2 = (403, ownedState) ∧
    getBudgetHandler ownedState 2 1 = (403, ownedState) ∧
    deleteBudgetHandler ownedState 2 1 = (403, ownedState) ∧
    getDocumentHandler ownedState 2 1 = (403, ownedState) ∧
    getInvestmentHandler ownedState 2 5 = (404, ownedState) := by
  have h := claimC1_ownership_isolation ownedState 2 1
  have h5 := claimC1_ownership_isolation ownedState 2 5
  have hinv := h.1 _ rfl (by decide)
  have hbud := h.2.2.1 _ rfl (by decide)
  have hdoc := h.2.2.2.2.1 _ rfl (by decide)
  exact ⟨hinv.1, hinv.2.2, hinv.2.1 sampleInvestment2, hbud.1, hbud.2.2, hdoc,
    (h5.2.1 (by decide)).1⟩

/-- C2 counterexample: with the sidecar unreachable, a concrete valid chat
query answers status 500, which is not a 502-class (gateway) status, so the
claim's "responds with a 502-class error" fails as stated. -/
theorem claimC2_counterexample :
    (chatQueryHandler twoUserState 1 "hello" SidecarResult.unreachable 9).1 = 500 ∧
    ¬(502 ≤ (chatQueryHandler twoUserState 1 "hello" SidecarResult.unreachable 9).1 ∧
      (chatQueryHandler twoUserState 1 "hello" SidecarResult.unreachable 9).1 ≤ 504) := by
  decide

/-- C2 (amended): when the sidecar is unreachable, POST /chat/query from an
authenticated user with a valid {message} body answers the generic 500
upstream-failure error (the source maps the failed sidecar call to 500, not
502) and persists exactly one new ChatMessage for that user — the
user-authored message — with no AI-authored message added and no other
user's history touched. -/
theorem claimC2_sidecar_unreachable (s : MemStorage) (uid now : Nat)
    (msg : String) (hmsg : 1 ≤ msg.length) :
    (chatQueryHandler s uid msg SidecarResult.unreachable now).1 = 500 ∧
    (chatQueryHandler s uid msg SidecarResult.unreachable now).2.1 = none ∧
    (chatQueryHandler s uid msg SidecarResult.unreachable now).2.2.getChatMessages uid =
      s.getChatMessages uid ++
        [{ id := s.chatMessageId, userId := uid, content := msg,
           isUserMessage := true, timestamp := now, metadata := [] }] ∧
    ((chatQueryHandler s uid msg SidecarResult.unreachable now).2.2.getChatMessages uid).length =
      (s.getChatMessages uid).length + 1 ∧
    (∀ u, u ≠ uid →
        (chatQueryHandler s uid msg SidecarResult.unreachable now).2.2.getChatMessages u =
          s.getChatMessages u) := by
  have hlt : ¬ msg.length < 1 := by omega
  have h3 : (chatQueryHandler s uid msg SidecarResult.unreachable now).2.2.getChatMessages uid =
      s.getChatMessages uid ++
        [{ id := s.chatMessageId, userId := uid, content := msg,
           isUserMessage := true, timestamp := now, metadata := [] }] := by
    simp [chatQueryHandler, hlt, MemStorage.createChatMessage,
      MemStorage.getChatMessages, mapGet_set_self]
  refine ⟨by simp [chatQueryHandler, hlt, MemStorage.createChatMessage],
    by simp [chatQueryHandler, hlt, MemStorage.createChatMessage], h3,
    by rw [h3]; simp, ?_⟩
  intro u hu
  simp only [chatQueryHandler, hlt, if_false, MemStorage.createChatMessage,
    MemStorage.getChatMessages]
  rw [mapGet_set_ne _ _ _ _ hu]

/-- Witness for C2 (amended) at a concrete store and message. -/
theorem claimC2_witness :
    (chatQueryHandler twoUserState 1 "hello" SidecarResult.unreachable 9).1 = 500 ∧
    (chatQueryHandler twoUserState 1 "hello" SidecarResult.unreachable 9).2.2.getChatMessages 1 =
      twoUserState.getChatMessages 1 ++
        [{ id := 1, userId := 1, content := "hello", isUserMessage := true,
           timestamp := 9, metadata := [] }] := by
  have h := claimC2_sidecar_unreachable twoUserState 1 9 "hello" (by decide)
  exact ⟨h.1, h.2.2.1⟩

/-- C3: for an authenticated existing (non-onboarded) user, POST /onboarding
with a zod-valid financial profile answers 200, flips the user's
onboardingCompleted flag (as then reported by GET /auth/status), and creates
a Financial Snapshot for that user with the seeded defaults netWorth 124500,
assets 189300, liabilities 64800. -/
theorem claimC3_onboarding (s : MemStorage) (uid now : Nat) (u : User)
    (p : FinancialProfile) (huser : s.getUser uid = some u)
    (_hnob : u.onboardingCompleted = false)
    (hvalid : financialProfileValid p = true) :
    (onboardingHandler s uid p now).1 = 200 ∧
    authStatusHandler (onboardingHandler s uid p now).2 (some uid) = (true, true) ∧
    (∃ fd, (onboardingHandler s uid p now).2.getFinancialData uid = some fd ∧
        fd.netWorth = 124500 ∧ fd.assets = 189300 ∧ fd.liabilities = 64800) := by
  have hmg : mapGet s.users uid = some u := huser
  refine ⟨?_, ?_, ?_⟩ <;>
    simp [onboardingHandler, hvalid, MemStorage.updateUserFinancialProfile,
      MemStorage.completeUserOnboarding, MemStorage.getUser, hmg,
      MemStorage.createFinancialData, MemStorage.getFinancialData,
      authStatusHandler, mapGet_set_self]

/-- Witness for C3: the spec's onboarding scenario payload against the
two-user store. -/
theorem claimC3_witness :
    (onboardingHandler twoUserState 1 sampleProfile 4).1 = 200 ∧
    authStatusHandler (onboardingHandler twoUserState 1 sampleProfile 4).2
      (some 1) = (true, true) := by
  have h := claimC3_onboarding twoUserState 1 4
    ((MemStorage.init.createUser sampleInsertUser).1) sampleProfile
    (by decide) (by decide) (by decide)
  exact ⟨h.1, h.2.1⟩

/-- C5 counterexample: createDocument drops the payload's fileContent — for
the concrete upload with fileContent "QQ==", the record returned by create
(and later by get-by-id) stores content "", so not every field of the
payload is preserved. -/
theorem claimC5_counterexample :
    ((MemStorage.init.createDocument 1 sampleDocument 0).1).content ≠
      sampleDocument.fileContent ∧
    ((MemStorage.init.createDocument 1 sampleDocument 0).1).content = "" := by
  decide

/-- C5 (amended): create followed by get-by-id round-trips the payload for
investments, budgets, risk analyses and forecasts — the stored record is the
payload plus the server-assigned id, the owner, the stamped timestamp (for
the entity types that carry one) and empty server-initialized metadata.
For documents, filename and documentType are preserved, but the payload's
fileContent is dropped: the stored content is always the empty string. -/
theorem claimC5_round_trip (s : MemStorage) (u now : Nat)
    (pInv : InvestmentData) (pBud : BudgetData) (pDoc : DocumentUpload)
    (pRa : RiskAnalysisData) (pFc : ForecastData) :
    ((s.createInvestment u pInv).2.getInvestment
        ((s.createInvestment u pInv).1).id = some (s.createInvestment u pInv).1 ∧
      ((s.createInvestment u pInv).1).id = s.investmentId ∧
      ((s.createInvestment u pInv).1).userId = u ∧
      ((s.createInvestment u pInv).1).name = pInv.name ∧
      ((s.createInvestment u pInv).1).type = pInv.type ∧
      ((s.createInvestment u pInv).1).value = pInv.value ∧
      ((s.createInvestment u pInv).1).purchaseDate = pInv.purchaseDate ∧
      ((s.createInvestment u pInv).1).purchasePrice = pInv.purchasePrice ∧
      ((s.createInvestment u pInv).1).currentPrice = pInv.currentPrice ∧
      ((s.createInvestment u pInv).1).quantity = pInv.quantity ∧
      ((s.createInvestment u pInv).1).notes = pInv.notes ∧
      ((s.createInvestment u pInv).1).metadata = []) ∧
    ((s.createBudget u pBud).2.getBudget ((s.createBudget u pBud).1).id =
        some (s.createBudget u pBud).1 ∧
      ((s.createBudget u pBud).1).id = s.budgetId ∧
      ((s.createBudget u pBud).1).userId = u ∧
      ((s.createBudget u pBud).1).name = pBud.name ∧
      ((s.createBudget u pBud).1).startDate = pBud.startDate ∧
      ((s.createBudget u pBud).1).endDate = pBud.endDate ∧
      ((s.createBudget u pBud).1).totalBudget = pBud.totalBudget ∧
      ((s.createBudget u pBud).1).categories = pBud.categories ∧
      ((s.createBudget u pBud).1).status = pBud.status) ∧
    ((s.createDocument u pDoc now).2.getDocument
        ((s.createDocument u pDoc now).1).id = some (s.createDocument u pDoc now).1 ∧
      ((s.createDocument u pDoc now).1).id = s.documentId ∧
      ((s.createDocument u pDoc now).1).userId = u ∧
      ((s.createDocument u pDoc now).1).uploadDate = now ∧
      ((s.createDocument u pDoc now).1).filename = pDoc.filename ∧
      ((s.createDocument u pDoc now).1).documentType = pDoc.documentType ∧
      ((s.createDocument u pDoc now).1).content = "" ∧
      ((s.createDocument u pDoc now).1).metadata = [] ∧
      ((s.createDocument u pDoc now).1).insights = []) ∧
    (mapGet ((s.createRiskAnalysis u pRa now).2).riskAnalyses
        ((s.createRiskAnalysis u pRa now).1).id = some (s.createRiskAnalysis u pRa now).1 ∧
      ((s.createRiskAnalysis u pRa now).1).id = s.riskAnalysisId ∧
      ((s.createRiskAnalysis u pRa now).1).userId = u ∧
      ((s.createRiskAnalysis u pRa now).1).analysisDate = now ∧
      ((s.createRiskAnalysis u pRa now).1).riskScore = pRa.riskScore ∧
      ((s.createRiskAnalysis u pRa now).1).portfolioHealth = pRa.portfolioHealth ∧
      ((s.createRiskAnalysis u pRa now).1).diversificationScore = pRa.diversificationScore ∧
      ((s.createRiskAnalysis u pRa now).1).volatilityMetrics = pRa.volatilityMetrics ∧
      ((s.createRiskAnalysis u pRa now).1).recommendations = pRa.recommendations ∧
      ((s.createRiskAnalysis u pRa now).1).scenarioAnalysis = pRa.scenarioAnalysis) ∧
    (mapGet ((s.createForecast u pFc now).2).forecasts
        ((s.createForecast u pFc now).1).id = some (s.createForecast u pFc now).1 ∧
      ((s.createForecast u pFc now).1).id = s.forecastId ∧
      ((s.createForecast u pFc now).1).userId = u ∧
      ((s.createForecast u pFc now).1).forecastDate = now ∧
      ((s.createForecast u pFc now).1).horizon = pFc.horizon ∧
      ((s.createForecast u pFc now).1).scenarios = pFc.scenarios ∧
      ((s.createForecast u pFc now).1).assumptions = pFc.assumptions ∧
      ((s.createForecast u pFc now).1).projections = pFc.projections) := by
  refine ⟨⟨?_, rfl, rfl, rfl, rfl, rfl, rfl, rfl, rfl, rfl, rfl, rfl⟩,
    ⟨?_, rfl, rfl, rfl, rfl, rfl, rfl, rfl, rfl⟩,
    ⟨?_, rfl, rfl, rfl, rfl, rfl, rfl, rfl, rfl⟩,
    ⟨?_, rfl, rfl, rfl, rfl, rfl, rfl, rfl, rfl, rfl⟩,
    ⟨?_, rfl, rfl, rfl, rfl, rfl, rfl, rfl⟩⟩
  · exact mapGet_set_self _ _ _
  · exact mapGet_set_self _ _ _
  · exact mapGet_set_self _ _ _
  · exact mapGet_set_self _ _ _
  · exact mapGet_set_self _ _ _

/-- C8: update idempotence for investments and budgets — a successful
update(id, p) applied a second time with the identical payload p returns the
same record and leaves the whole store exactly as after the first
application. -/
theorem claimC8_update_idempotent (s : MemStorage)
    (idI : Nat) (pI : InvestmentData) (rI : InvestmentRecord) (sI : MemStorage)
    (idB : Nat) (pB : BudgetData) (rB : BudgetRecord) (sB : MemStorage) :
    (s.updateInvestment idI pI = some (rI, sI) →
        sI.updateInvestment idI pI = some (rI, sI)) ∧
    (s.updateBudget idB pB = some (rB, sB) →
        sB.updateBudget idB pB = some (rB, sB)) := by
  constructor
  · intro h
    cases hget : mapGet s.investments idI with
    | none => rw [MemStorage.updateInvestment, hget] at h; cases h
    | some e =>
        rw [MemStorage.updateInvestment, hget] at h
        injection h with h
        injection h with h1 h2
        subst h1
        subst h2
        have hget2 : mapGet
            ({ s with investments :=
                mapSet s.investments idI (mergeInvestment e pI) } : MemStorage).investments
            idI = some (mergeInvestment e pI) := mapGet_set_self _ _ _
        simp only [MemStorage.updateInvestment, hget2, mergeInvestment_idem,
          mapSet_mapSet]
  · intro h
    cases hget : mapGet s.budgets idB with
    | none => rw [MemStorage.updateBudget, hget] at h; cases h
    | some e =>
        rw [MemStorage.updateBudget, hget] at h
        injection h with h
        injection h with h1 h2
        subst h1
        subst h2
        have hget2 : mapGet
            ({ s with budgets :=
                mapSet s.budgets idB (mergeBudget e pB) } : MemStorage).budgets
            idB = some (mergeBudget e pB) := mapGet_set_self _ _ _
        simp only [MemStorage.updateBudget, hget2, mergeBudget_idem,
          mapSet_mapSet]

/-- Record and state produced by the concrete first investment update used to
witness C8. -/
def updInvOnce : InvestmentRecord × MemStorage :=
  (ownedState.updateInvestment 1 sampleInvestment2).getD
    (mkInvestmentRecord 0 0 sampleInvestment2, ownedState)

/-- Record and state produced by the concrete first budget update used to
witness C8. -/
def updBudOnce : BudgetRecord × MemStorage :=
  (ownedState.updateBudget 1 sampleBudget).getD
    (mkBudgetRecord 0 0 sampleBudget, ownedState)

/-- Witness for C8: updating investment 1 and budget 1 of the concrete store
a second time with the same payloads reproduces the first result exactly. -/
theorem claimC8_witness :
    updInvOnce.2.updateInvestment 1 sampleInvestment2 = some updInvOnce ∧
    updBudOnce.2.updateBudget 1 sampleBudget = some updBudOnce := by
  have h := claimC8_update_idempotent ownedState 1 sampleInvestment2
    updInvOnce.1 updInvOnce.2 1 sampleBudget updBudOnce.1 updBudOnce.2
  exact ⟨h.1 (by decide), h.2 (by decide)⟩

theorem length_filter_ne_of_nodup (l : List Nat) (a : Nat) (hnd : l.Nodup)
    (ha : a ∈ l) : (l.filter (fun x => x ≠ a)).length = l.length - 1 := by
  induction l with
  | nil => simp at ha
  | cons x xs ih =>
      rw [List.nodup_cons] at hnd
      obtain ⟨hx, hnd⟩ := hnd
      rcases List.mem_cons.mp ha with rfl | ha'
      · simp [List.filter_cons]
        exact fun y hy h => hx (h ▸ hy)
      · have hxa : x ≠ a := fun h => hx (h ▸ ha')
        have hlen : 1 ≤ xs.length :=
          List.length_pos.mpr (List.ne_nil_of_mem ha')
        have hstep : ((x :: xs).filter (fun y => y ≠ a)).length =
            (xs.filter (fun y => y ≠ a)).length + 1 := by
          simp [List.filter_cons, hxa]
        rw [hstep, ih hnd ha']
        simp only [List.length_cons]
        omega

/-- C6: after N investment creates for an owner whose index starts empty,
deleting the j-th created id leaves listByOwner returning exactly N−1
records, in creation (index) order, none of which carries the deleted id. -/
theorem claimC6_list_after_delete (s : MemStorage) (u : Nat)
    (ps : List InvestmentData) (j : Nat)
    (hempty : (mapGet s.userInvestments u).getD [] = [])
    (hj : j < ps.length) :
    ((((createInvestments s u ps).deleteInvestment
        (s.investmentId + j)).2).getInvestments u).length = ps.length - 1 ∧
    (∀ r ∈ (((createInvestments s u ps).deleteInvestment
        (s.investmentId + j)).2).getInvestments u,
        r.id ≠ s.investmentId + j) ∧
    ((((createInvestments s u ps).deleteInvestment
        (s.investmentId + j)).2).getInvestments u).map InvestmentRecord.id =
      ((List.range ps.length).map (fun i => s.investmentId + i)).filter
        (fun x => x ≠ s.investmentId + j) := by
  obtain ⟨hc, hidx, hres, hold⟩ := createInvestments_spec ps s u
  have hidx' : (mapGet (createInvestments s u ps).userInvestments u).getD [] =
      (List.range ps.length).map (fun i => s.investmentId + i) := by
    rw [hidx, hempty]
    simp
  obtain ⟨rec, hrec, hrid, hru⟩ :=
    hres (s.investmentId + j) (by omega) (by omega)
  have hdel : ((createInvestments s u ps).deleteInvestment
      (s.investmentId + j)).2 =
      { createInvestments s u ps with
        investments :=
          mapErase (createInvestments s u ps).investments (s.investmentId + j)
        userInvestments :=
          mapSet (createInvestments s u ps).userInvestments u
            (((mapGet (createInvestments s u ps).userInvestments u).getD
                []).filter (fun invId => invId ≠ s.investmentId + j)) } := by
    simp only [MemStorage.deleteInvestment, hrec, hru]
  have hname : (((createInvestments s u ps).deleteInvestment
      (s.investmentId + j)).2).getInvestments u =
      (((List.range ps.length).map (fun i => s.investmentId + i)).filter
          (fun x => x ≠ s.investmentId + j)).filterMap
        (mapGet (mapErase (createInvestments s u ps).investments
          (s.investmentId + j))) := by
    rw [hdel]
    simp only [MemStorage.getInvestments]
    rw [mapGet_set_self]
    simp only [Option.getD_some]
    rw [hidx']
  have hresolve : ∀ i ∈ ((List.range ps.length).map
        (fun i => s.investmentId + i)).filter (fun x => x ≠ s.investmentId + j),
      ∃ r, mapGet (mapErase (createInvestments s u ps).investments
          (s.investmentId + j)) i = some r ∧ r.id = i ∧ r.userId = u := by
    intro i hi
    rw [List.mem_filter] at hi
    obtain ⟨hi1, hi2⟩ := hi
    obtain ⟨i', hi', rfl⟩ := List.mem_map.mp hi1
    have hir : i' < ps.length := List.mem_range.mp hi'
    have hne : s.investmentId + i' ≠ s.investmentId + j := by simpa using hi2
    obtain ⟨r, hr, hrid2, hru2⟩ :=
      hres (s.investmentId + i') (by omega) (by omega)
    refine ⟨r, ?_, hrid2, hru2⟩
    rw [mapGet_erase_ne _ _ _ hne]
    exact hr
  have h3 : ((((createInvestments s u ps).deleteInvestment
      (s.investmentId + j)).2).getInvestments u).map InvestmentRecord.id =
      ((List.range ps.length).map (fun i => s.investmentId + i)).filter
        (fun x => x ≠ s.investmentId + j) := by
    rw [hname]
    exact filterMap_map_of_resolves _ _ _
      (fun i hi => (hresolve i hi).imp (fun r hr => ⟨hr.1, hr.2.1⟩))
  have hnd : ((List.range ps.length).map
      (fun i => s.investmentId + i)).Nodup := by
    refine List.Nodup.map ?_ (List.nodup_range ps.length)
    exact fun a b hab => Nat.add_left_cancel hab
  have hmem : s.investmentId + j ∈
      (List.range ps.length).map (fun i => s.investmentId + i) :=
    List.mem_map.mpr ⟨j, List.mem_range.mpr hj, rfl⟩
  refine ⟨?_, ?_, h3⟩
  · have hlen := congrArg List.length h3
    rw [List.length_map] at hlen
    rw [hlen, length_filter_ne_of_nodup _ _ hnd hmem, List.length_map,
      List.length_range]
  · intro r hr
    rw [hname] at hr
    obtain ⟨i, hi, hfi⟩ := List.mem_filterMap.mp hr
    obtain ⟨r', hr', hrid2, _⟩ := hresolve i hi
    have hrr : r = r' := by
      rw [hr'] at hfi
      exact (Option.some_inj.mp hfi).symm
    rw [hrr, hrid2]
    simpa using (List.mem_filter.mp hi).2

/-- Witness for C6: three creates for user 1 from the empty store, then
deleting the second created id (investment 2). -/
theorem claimC6_witness :
    ((((createInvestments MemStorage.init 1
        [sampleInvestment, sampleInvestment2, sampleInvestment]).deleteInvestment
        2).2).getInvestments 1).length = 2 ∧
    ((((createInvestments MemStorage.init 1
        [sampleInvestment, sampleInvestment2, sampleInvestment]).deleteInvestment
        2).2).getInvestments 1).map InvestmentRecord.id = [1, 3] := by
  have h := claimC6_list_after_delete MemStorage.init 1
    [sampleInvestment, sampleInvestment2, sampleInvestment] 1
    (by decide) (by decide)
  have hid : MemStorage.init.investmentId + 1 = 2 := rfl
  rw [hid] at h
  exact ⟨h.1, h.2.2.trans (by decide)⟩

end SmartAiAnalyzer
